import Mathlib

/-!
# Verification of the `MapManager` element / highlight subsystem

Shallow embedding of `src/map3d/mapManager.ts` and the drawing helpers of
`src/map3d/drawFunc.ts` (repository `demo-threejs-chinamap`).

Modelling conventions:
* three.js `Color` objects are triples of rationals (`r`,`g`,`b`), with
  `setHex` and `lerpColors` translated from three.js semantics
  (`lerpColors c1 c2 t` sets each component to `c1 + (c2 - c1) * t`).
* Materials are values carrying a kind tag (`MeshPhongMaterial`,
  `ShaderMaterial`, `MeshBasicMaterial`); `clone()` is value copy.
* The mutable scene is a store `Nat → Mesh` addressed by mesh ids; a region
  node records the ids of the meshes beneath it in `traverse` order.
* `setTimeout` / `clearTimeout` are modelled by a list of pending
  `(regionName, duration)` timers; a revert tween driven by
  `requestAnimationFrame` is a `Tween` value, advanced by `stepTweens`
  (one animation frame).  The first `animate()` call of
  `restoreRegionMaterial` runs synchronously, which `installTween` mirrors
  by performing the `t = 0.02` write immediately.
* JavaScript numbers that can be `undefined` or `NaN` (the spot ring's
  `_s` counter) are modelled by `JVal`.
-/

/-- three.js `Color`: components are floats in the source, rationals here. -/
structure Color where
  r : ℚ
  g : ℚ
  b : ℚ
deriving DecidableEq, Repr

/-- `Color.setHex` of three.js: split a 24-bit hex into components / 255. -/
def Color.setHex (h : Nat) : Color :=
  ⟨((h / 65536 % 256 : ℕ) : ℚ) / 255, ((h / 256 % 256 : ℕ) : ℚ) / 255,
    ((h % 256 : ℕ) : ℚ) / 255⟩

/-- `Color.lerpColors c1 c2 t` of three.js: componentwise `c1 + (c2-c1)*t`. -/
def Color.lerpColors (c1 c2 : Color) (t : ℚ) : Color :=
  ⟨c1.r + (c2.r - c1.r) * t, c1.g + (c2.g - c1.g) * t, c1.b + (c2.b - c1.b) * t⟩

/-- Material class tag: `instanceof THREE.MeshPhongMaterial` checks
`kind = phong`. -/
inductive MatKind where
  | phong
  | shader
  | basic
deriving DecidableEq, Repr

/-- A three.js material value (colour, emissive, opacity, class tag).
Non-phong materials simply ignore the unused fields. -/
structure Material where
  kind : MatKind
  color : Color
  emissive : Color
  opacity : ℚ
deriving DecidableEq, Repr

/-- `mesh.material` is either a single material or an array of materials. -/
inductive MatSlot where
  | single (m : Material)
  | array (ms : List Material)
deriving DecidableEq, Repr

/-- A mesh: its material slot and the `userData.isChangeColor` mark set by
`drawExtrudeMesh`. -/
structure Mesh where
  material : MatSlot
  isChangeColor : Bool
deriving DecidableEq, Repr

/-- The aliased identity fields consulted by `findRegionByName`
(`properties.name`, `properties.NAME`, `properties.adcode`,
`properties.code`). -/
structure RegionProps where
  name : Option String
  nameUpper : Option String
  adcode : Option String
  code : Option String
deriving DecidableEq, Repr

/-- A property-carrying scene node under `mapObject3D` (one province object):
its `customProperties` and the ids of the meshes beneath it, in `traverse`
order. -/
structure RegionNode where
  props : RegionProps
  meshIds : List Nat
deriving DecidableEq, Repr

/-- One entry of the `highlightedRegions` map: captured meshes and the
per-material snapshots (`originalMaterials`). -/
structure HighlightInfo where
  meshes : List Nat
  originalMaterials : List Material
deriving DecidableEq, Repr

/-- A running colour-revert animation started by `restoreRegionMaterial`:
fixed start/end colours and emissives and the current parameter `t`
(incremented by `0.02` per animation frame). -/
structure Tween where
  meshId : Nat
  startColor : Color
  endColor : Color
  startEmissive : Color
  endEmissive : Color
  t : ℚ
deriving DecidableEq, Repr

/-- State of the highlight subsystem of `MapManager`: the (immutable)
region nodes of `mapObject3D`, the mesh store, the `highlightedRegions`
map, the pending `setTimeout` revert timers and the running revert
tweens. -/
structure HState where
  regions : List RegionNode
  meshes : Nat → Mesh
  highlighted : List (String × HighlightInfo)
  timers : List (String × Nat)
  tweens : List Tween

/-- Association-list lookup (JS `Map.get`). -/
def alistGet {β : Type} (k : String) : List (String × β) → Option β
  | [] => none
  | p :: rest => if p.1 = k then some p.2 else alistGet k rest

/-- Association-list insert (JS `Map.set`): replace in place if the key is
present, else append. -/
def alistSet {β : Type} (k : String) (v : β) : List (String × β) → List (String × β)
  | [] => [(k, v)]
  | p :: rest => if p.1 = k then (k, v) :: rest else p :: alistSet k v rest

/-- Association-list delete (JS `Map.delete`). -/
def alistDelete {β : Type} (k : String) (l : List (String × β)) :
    List (String × β) :=
  l.filter (fun p => ¬ p.1 = k)

/-- The keys of an association list are pairwise distinct (the JS `Map`
invariant). -/
def nodupKeys {β : Type} (l : List (String × β)) : Prop :=
  (l.map Prod.fst).Nodup

instance nodupKeysDec {β : Type} (l : List (String × β)) : Decidable (nodupKeys l) := by
  unfold nodupKeys
  infer_instance

/-- `findRegionByName`'s match condition: any of the aliased fields equals
the requested name. -/
def regionMatches (regionName : String) (node : RegionNode) : Bool :=
  node.props.name = some regionName ∨ node.props.nameUpper = some regionName ∨
    node.props.adcode = some regionName ∨ node.props.code = some regionName

/-- `findRegionByName`: `traverse` assigns `targetRegion` on every match, so
the last matching node wins. -/
def findRegion (regionName : String) (regions : List RegionNode) :
    Option RegionNode :=
  regions.foldl (fun acc node => if regionMatches regionName node then some node else acc)
    none

/-- The meshes collected by `highlightRegion`'s traverse: children marked
`userData.isChangeColor`. -/
def captureIds (node : RegionNode) (store : Nat → Mesh) : List Nat :=
  node.meshIds.filter (fun mid => (store mid).isChangeColor)

/-- The `originalMaterials` snapshot collected by `highlightRegion`: one
clone per material (all entries of a material array contribute). -/
def captureOrigs (node : RegionNode) (store : Nat → Mesh) : List Material :=
  (captureIds node store).flatMap (fun mid =>
    match (store mid).material with
    | .single m => [m]
    | .array ms => ms)

/-- Write colour and emissive into the top material of one mesh
(`material[0]` for arrays, the material itself otherwise). -/
def setTopMat (c e : Color) : MatSlot → MatSlot
  | .single m => .single { m with color := c, emissive := e }
  | .array [] => .array []
  | .array (m0 :: rest) => .array ({ m0 with color := c, emissive := e } :: rest)

/-- Pointwise store update writing colour/emissive into mesh `mid`'s top
material. -/
def setTop (c e : Color) (mid : Nat) (store : Nat → Mesh) : Nat → Mesh :=
  fun i => if i = mid then { store i with material := setTopMat c e (store i).material }
           else store i

/-- `0xFFD700`, the gold highlight colour. -/
def goldColor : Color := Color.setHex 0xFFD700

/-- `0x444400`, the highlight emissive. -/
def goldEmissive : Color := Color.setHex 0x444400

/-- One mesh of `applyHighlightMaterial`: set gold colour/emissive on the
top material when it is a `MeshPhongMaterial` (array: index 0 only). -/
def applyHighlightStep (f : Nat → Mesh) (mid : Nat) : Nat → Mesh :=
  match (f mid).material with
  | .single m => if m.kind = .phong then setTop goldColor goldEmissive mid f else f
  | .array [] => f
  | .array (m0 :: _) => if m0.kind = .phong then setTop goldColor goldEmissive mid f else f

/-- `applyHighlightMaterial`: set gold colour/emissive on the top material of
each captured mesh, but only when it is a `MeshPhongMaterial`. -/
def applyHighlightMaterial (mids : List Nat) (s : HState) : HState :=
  { s with meshes := mids.foldl applyHighlightStep s.meshes }

/-- Install the revert tween for one mesh: capture start (current) and end
(snapshot) colours, run the first `animate()` step synchronously
(`t = 0.02`, write the lerped colours) and register the tween for the
following animation frames. -/
def installTween (mid : Nat) (cur orig : Material) (s : HState) : HState :=
  { s with
    meshes := setTop (Color.lerpColors cur.color orig.color (1/50))
      (Color.lerpColors cur.emissive orig.emissive (1/50)) mid s.meshes,
    tweens := s.tweens ++
      [⟨mid, cur.color, orig.color, cur.emissive, orig.emissive, 1/50⟩] }

/-- One step of `restoreRegionMaterial`'s loop over the captured meshes,
carrying the running `materialIndex`.  For a material array only index 0 is
considered; the phong/phong guard decides whether a tween starts;
`materialIndex` advances whenever the bounds check passes. -/
def restoreStepFn (origs : List Material) (acc : HState × Nat) (mid : Nat) :
    HState × Nat :=
  let s := acc.1
  let idx := acc.2
  match (s.meshes mid).material with
  | .array [] => (s, idx)
  | .array (m0 :: _) =>
      if h : idx < origs.length then
        let orig := origs.get ⟨idx, h⟩
        let s' := if m0.kind = .phong ∧ orig.kind = .phong then installTween mid m0 orig s
                  else s
        (s', idx + 1)
      else (s, idx)
  | .single m =>
      if h : idx < origs.length then
        let orig := origs.get ⟨idx, h⟩
        let s' := if m.kind = .phong ∧ orig.kind = .phong then installTween mid m orig s
                  else s
        (s', idx + 1)
      else (s, idx)

/-- `restoreRegionMaterial`: start the gradual revert for every captured mesh
and discard the region's highlight entry. -/
def restoreRegionMaterial (regionName : String) (s : HState) : HState :=
  match alistGet regionName s.highlighted with
  | none => s
  | some info =>
      let s' := (info.meshes.foldl (restoreStepFn info.originalMaterials) (s, 0)).1
      { s' with highlighted := alistDelete regionName s'.highlighted }

/-- `clearRegionHighlight`: cancel the pending timer and revert immediately;
`false` and no change when the region has no active record. -/
def clearRegionHighlight (regionName : String) (s : HState) : Bool × HState :=
  match alistGet regionName s.highlighted with
  | none => (false, s)
  | some _ =>
      (true, restoreRegionMaterial regionName
        { s with timers := s.timers.filter (fun p => ¬ p.1 = regionName) })

/-- `highlightRegion`: clear an existing highlight of the same name first,
look the region up, capture meshes and material snapshots, apply the gold
highlight, schedule the revert timer and store the record. -/
def highlightRegion (regionName : String) (duration : Nat) (s : HState) :
    Bool × HState :=
  let s1 := if (alistGet regionName s.highlighted).isSome then
              (clearRegionHighlight regionName s).2
            else s
  match findRegion regionName s1.regions with
  | none => (false, s1)
  | some node =>
      let mids := captureIds node s1.meshes
      if mids.isEmpty then (false, s1)
      else
        let origs := captureOrigs node s1.meshes
        let s2 := applyHighlightMaterial mids s1
        (true, { s2 with
          timers := s2.timers ++ [(regionName, duration)],
          highlighted := alistSet regionName ⟨mids, origs⟩ s2.highlighted })

/-- The revert timer of `regionName` elapses: the timeout is no longer
pending and its callback runs `restoreRegionMaterial`. -/
def fireTimer (regionName : String) (s : HState) : HState :=
  restoreRegionMaterial regionName
    { s with timers := s.timers.filter (fun p => ¬ p.1 = regionName) }

/-- The write one animation frame performs for one running tween
(`t += 0.02`; at `t ≥ 1` copy the end colours, otherwise lerp). -/
def tweenWrite (store : Nat → Mesh) (tw : Tween) : Nat → Mesh :=
  let t' := tw.t + 1/50
  if 1 ≤ t' then setTop tw.endColor tw.endEmissive tw.meshId store
  else setTop (Color.lerpColors tw.startColor tw.endColor t')
    (Color.lerpColors tw.startEmissive tw.endEmissive t') tw.meshId store

/-- One animation frame: every running tween advances once; tweens that
reach `t ≥ 1` copy their end colours and stop rescheduling. -/
def stepTweens (s : HState) : HState :=
  { s with
    meshes := s.tweens.foldl tweenWrite s.meshes,
    tweens := (s.tweens.filter (fun tw => tw.t + 1/50 < 1)).map
      (fun tw => { tw with t := tw.t + 1/50 }) }

/-- The two public highlight operations, for reasoning about call
sequences. -/
inductive HOp where
  | hl (regionName : String) (duration : Nat)
  | clr (regionName : String)

/-- Apply one public highlight operation (dropping the returned boolean). -/
def applyHOp (s : HState) : HOp → HState
  | .hl n d => (highlightRegion n d s).2
  | .clr n => (clearRegionHighlight n s).2

/-- Apply a sequence of public highlight operations. -/
def applyHOps (ops : List HOp) (s : HState) : HState :=
  ops.foldl applyHOp s

/-- Colour of a mesh's top material, when it has one. -/
def topColor (mesh : Mesh) : Option Color :=
  match mesh.material with
  | .single m => some m.color
  | .array [] => none
  | .array (m0 :: _) => some m0.color

/-- Emissive of a mesh's top material, when it has one. -/
def topEmissive (mesh : Mesh) : Option Color :=
  match mesh.material with
  | .single m => some m.emissive
  | .array [] => none
  | .array (m0 :: _) => some m0.emissive

/-- The mesh's top material (used to name tween start values); meshes of
interest always have one. -/
def headMat (mesh : Mesh) : Material :=
  match mesh.material with
  | .single m => m
  | .array (m0 :: _) => m0
  | .array [] => ⟨.basic, ⟨0, 0, 0⟩, ⟨0, 0, 0⟩, 1⟩

/-- The mesh carries a single (non-array) `MeshPhongMaterial`. -/
def singlePhong (mesh : Mesh) : Prop :=
  ∃ m, mesh.material = .single m ∧ m.kind = .phong

/-- The mesh carries a single (non-array) material. -/
def isSingleMesh (mesh : Mesh) : Prop :=
  ∃ m, mesh.material = .single m

/-! ## Element manager (`elements` map, containers, animation lists) -/

/-- The `type` discriminant of `MapElement`. -/
inductive ElemType where
  | label
  | bubble
  | spot
  | model
  | line
deriving DecidableEq, Repr

/-- A `MapElement` payload together with the fields the manager fills in
(`object3D`, `data.ring` of a spot, `data.flySpot` of a line).  Scene
objects are identified by numeric ids. -/
structure MapElement where
  id : String
  etype : ElemType
  position : List ℚ
  text : String := ""
  startPosition : List ℚ := []
  endPosition : List ℚ := []
  modelPath : String := ""
  animation : Bool := false
  object3D : Option Nat := none
  dataRing : Option Nat := none
  dataFlySpot : Option Nat := none
deriving DecidableEq, Repr

/-- State of the element side of `MapManager`: the `elements` map (insertion
ordered, as a JS `Map`), the per-type containers, the animation lists
(`animatedSpots` stores ring object ids, `flySpots` fly-spot ids,
`modelMixers` the mixers' root object ids) and a fresh-id counter for newly
created scene objects. -/
structure MgrState where
  elements : List (String × MapElement)
  labelsContainer : List Nat
  spotsContainer : List Nat
  modelsContainer : List Nat
  linesContainer : List Nat
  animatedSpots : List Nat
  flySpots : List Nat
  modelMixers : List Nat
  nextId : Nat
deriving DecidableEq, Repr

/-- `draw2dLabel` yields an object exactly when the coordinate array is
non-empty (`if (coord && coord.length)`); likewise `draw2dBubble` and
`drawSpot`. -/
def drawGuard (coord : List ℚ) : Bool :=
  ¬ coord = []

/-- `addLabel`: draw the 2D label; when the helper produced an object,
attach it and insert the element; the promise resolves either way. -/
def addLabel (e : MapElement) (s : MgrState) : MgrState :=
  if drawGuard e.position then
    { s with
      labelsContainer := s.labelsContainer ++ [s.nextId],
      elements := alistSet e.id { e with object3D := some s.nextId } s.elements,
      nextId := s.nextId + 1 }
  else s

/-- `addBubble`: same shape as `addLabel` (bubbles live in the labels
container). -/
def addBubble (e : MapElement) (s : MgrState) : MgrState :=
  if drawGuard e.position then
    { s with
      labelsContainer := s.labelsContainer ++ [s.nextId],
      elements := alistSet e.id { e with object3D := some s.nextId } s.elements,
      nextId := s.nextId + 1 }
  else s

/-- `addSpot`: when `drawSpot` produced a circle and ring, wrap them in a
container, register the ring in `animatedSpots` and insert the element.
Fresh ids: circle, ring, container. -/
def addSpot (e : MapElement) (s : MgrState) : MgrState :=
  if drawGuard e.position then
    { s with
      spotsContainer := s.spotsContainer ++ [s.nextId + 2],
      elements := alistSet e.id
        { e with object3D := some (s.nextId + 2), dataRing := some (s.nextId + 1) }
        s.elements,
      animatedSpots := s.animatedSpots ++ [s.nextId + 1],
      nextId := s.nextId + 3 }
  else s

/-- Outcome of the external glTF binary load: `none` is a load error (the
promise rejects), `some hasAnims` a success, recording whether the asset
carries animation clips. -/
def LoadEnv : Type := String → Option Bool

/-- `addModel`: only this variant waits on the external load.  On failure
the element's promise rejects and nothing is inserted; on success the clone
is attached, a mixer is registered when requested and animations exist, and
the element is inserted. -/
def addModel (env : LoadEnv) (e : MapElement) (s : MgrState) : MgrState :=
  match env e.modelPath with
  | none => s
  | some hasAnims =>
      { s with
        modelsContainer := s.modelsContainer ++ [s.nextId],
        modelMixers := if e.animation ∧ hasAnims then s.modelMixers ++ [s.nextId]
                       else s.modelMixers,
        elements := alistSet e.id { e with object3D := some s.nextId } s.elements,
        nextId := s.nextId + 1 }

/-- `addLine`: `drawLineBetween2Spot` always produces a line and fly spot;
the fly spot joins the `flySpots` animation list.  Fresh ids: flyLine,
flySpot, container. -/
def addLine (e : MapElement) (s : MgrState) : MgrState :=
  { s with
    linesContainer := s.linesContainer ++ [s.nextId + 2],
    elements := alistSet e.id
      { e with object3D := some (s.nextId + 2), dataFlySpot := some (s.nextId + 1) }
      s.elements,
    flySpots := s.flySpots ++ [s.nextId + 1],
    nextId := s.nextId + 3 }

/-- Dispatch of `addElements` on one element (the `switch` over
`element.type`; an unknown type resolves without effect). -/
def addOneElement (env : LoadEnv) (s : MgrState) (e : MapElement) : MgrState :=
  match e.etype with
  | .label => addLabel e s
  | .bubble => addBubble e s
  | .spot => addSpot e s
  | .model => addModel env e s
  | .line => addLine e s

/-- `addElements`: create every element of the batch (each promise's
executor runs in list order). -/
def addElements (env : LoadEnv) (es : List MapElement) (s : MgrState) : MgrState :=
  es.foldl (addOneElement env) s

/-- The `switch (element.type)` of `removeElement`: detach the scene object
from its container and prune the matching animation list. -/
def detachElement (e : MapElement) (obj : Nat) (s : MgrState) : MgrState :=
  match e.etype with
  | .label => { s with labelsContainer := s.labelsContainer.erase obj }
  | .bubble => { s with labelsContainer := s.labelsContainer.erase obj }
  | .spot =>
      { s with
        spotsContainer := s.spotsContainer.erase obj,
        animatedSpots := match e.dataRing with
          | some ring => s.animatedSpots.erase ring
          | none => s.animatedSpots }
  | .model =>
      { s with
        modelsContainer := s.modelsContainer.erase obj,
        modelMixers := s.modelMixers.erase obj }
  | .line =>
      { s with
        linesContainer := s.linesContainer.erase obj,
        flySpots := match e.dataFlySpot with
          | some fs => s.flySpots.erase fs
          | none => s.flySpots }

/-- `removeElement`: `false` when the id is unknown or carries no scene
object; otherwise detach from the containers and animation lists, dispose,
and delete the map entry. -/
def removeElement (id : String) (s : MgrState) : Bool × MgrState :=
  match alistGet id s.elements with
  | none => (false, s)
  | some e =>
      match e.object3D with
      | none => (false, s)
      | some obj =>
          let s1 := detachElement e obj s
          (true, { s1 with elements := alistDelete id s1.elements })

/-- `removeElements`: remove each id in turn. -/
def removeElements (ids : List String) (s : MgrState) : MgrState :=
  ids.foldl (fun st i => (removeElement i st).2) s

/-- Decimal value of a digit string (`parseInt` on the regex capture). -/
def digitsToNat (acc : Nat) : List Char → Nat
  | [] => acc
  | c :: cs => digitsToNat (acc * 10 + (c.toNat - 48)) cs

/-- The `^label-(\d+)$` pattern of `clearAllElements`: `some n` when the id
is `label-` followed by one or more decimal digits parsing to `n`. -/
def labelNum (id : String) : Option Nat :=
  match id.data with
  | 'l' :: 'a' :: 'b' :: 'e' :: 'l' :: '-' :: rest =>
      if ¬ rest = [] ∧ rest.all Char.isDigit then some (digitsToNat 0 rest) else none
  | _ => none

/-- `clearAllElements`'s filter: an id is removed unless it matches
`label-N` with `N ≤ 31` (`parseInt` of digits is never negative, so
`num < 0 || num > 31` is `N > 31`). -/
def shouldRemoveId (id : String) : Bool :=
  match labelNum id with
  | some n => 31 < n
  | none => true

/-- `clearAllElements`: remove every live element except the protected
`label-0` … `label-31` subset. -/
def clearAllElements (s : MgrState) : MgrState :=
  removeElements ((s.elements.map Prod.fst).filter shouldRemoveId) s

/-- `getElement`. -/
def getElement (id : String) (s : MgrState) : Option MapElement :=
  alistGet id s.elements

/-! ## Spot-ring pulse animation (`updateAnimations`, `drawSpot`) -/

/-- A JavaScript number slot that may be `undefined` or `NaN`. -/
inductive JVal where
  | undef
  | nan
  | num (v : ℚ)
deriving DecidableEq, Repr

/-- JS addition on such a slot: `undefined + x` and `NaN + x` are `NaN`. -/
def jAdd : JVal → JVal → JVal
  | .num a, .num b => .num (a + b)
  | _, _ => .nan

/-- JS `x <= b` where `x` may be `undefined`/`NaN`: comparisons against
`NaN` are false. -/
def jLe (a : JVal) (b : ℚ) : Bool :=
  match a with
  | .num v => v ≤ b
  | _ => false

/-- A spot ring as animated by `updateAnimations`: the `_s` counter (a plain
JS property, absent until first written), the uniform scale and the
material's opacity. -/
structure SpotRing where
  sVal : JVal
  scale : JVal × JVal × JVal
  opacity : ℚ
deriving DecidableEq, Repr

/-- The ring produced by `drawSpot` for a non-empty coordinate array: note
that `drawSpot` never initialises `_s` (unlike `drawflySpot`), scale is the
default 1 and a fresh `MeshBasicMaterial` has opacity 1. -/
def drawSpotRing (coord : List ℚ) : Option SpotRing :=
  if drawGuard coord then
    some { sVal := .undef, scale := (.num 1, .num 1, .num 1), opacity := 1 }
  else none

/-- The ring branch of `updateAnimations`: `_s += 0.01`, apply `_s` as the
uniform scale, then either fade (`opacity = 2 - _s` while `_s <= 2`) or
reset `_s` to 1. -/
def updateRing (r : SpotRing) : SpotRing :=
  let s' := jAdd r.sVal (.num (1/100))
  let r1 := { r with sVal := s', scale := (s', s', s') }
  match s' with
  | .num v => if v ≤ 2 then { r1 with opacity := 2 - v } else { r1 with sVal := .num 1 }
  | _ => { r1 with sVal := .num 1 }

/-- The ring part of `updateAnimations`: every registered ring advances
once per call. -/
def updateAnimationsRings (l : List SpotRing) : List SpotRing :=
  l.map updateRing

/-! ## Association-list (JS `Map`) lemmas -/

/-- Looking up the key just set yields the new value. -/
theorem alistGet_set_self {β : Type} (k : String) (v : β) (l : List (String × β)) :
    alistGet k (alistSet k v l) = some v := by
  induction l with
  | nil => simp [alistGet, alistSet]
  | cons p rest ih =>
      by_cases h : p.1 = k <;> simp [alistGet, alistSet, h, ih]

/-- Setting one key does not disturb lookups of other keys. -/
theorem alistGet_set_ne {β : Type} (k k' : String) (v : β) (l : List (String × β))
    (h : ¬ k' = k) : alistGet k' (alistSet k v l) = alistGet k' l := by
  have hk : ¬ k = k' := fun hh => h hh.symm
  induction l with
  | nil => simp [alistGet, alistSet, hk]
  | cons p rest ih =>
      by_cases hp : p.1 = k
      · have hp' : ¬ p.1 = k' := by rw [hp]; exact hk
        simp [alistSet, hp, alistGet, hk, hp']
      · by_cases hp' : p.1 = k'
        · simp [alistSet, hp, alistGet, hp', h]
        · simp [alistSet, hp, alistGet, hp', h, ih]

/-- Deleting a key removes it from the map. -/
theorem alistGet_delete_self {β : Type} (k : String) (l : List (String × β)) :
    alistGet k (alistDelete k l) = none := by
  induction l with
  | nil => rfl
  | cons p rest ih =>
      by_cases h : p.1 = k
      · simpa [alistDelete, List.filter_cons, h] using ih
      · simpa [alistDelete, List.filter_cons, h, alistGet] using ih

/-- Deleting one key does not disturb lookups of other keys. -/
theorem alistGet_delete_ne {β : Type} (k k' : String) (l : List (String × β))
    (h : ¬ k' = k) : alistGet k' (alistDelete k l) = alistGet k' l := by
  have hk : ¬ k = k' := fun hh => h hh.symm
  induction l with
  | nil => rfl
  | cons p rest ih =>
      by_cases hp : p.1 = k
      · have hp' : ¬ p.1 = k' := by rw [hp]; exact hk
        simpa [alistDelete, List.filter_cons, hp, alistGet, hp', hk, h] using ih
      · by_cases hp' : p.1 = k'
        · simp [alistDelete, List.filter_cons, hp, alistGet, hp', hk, h]
        · simpa [alistDelete, List.filter_cons, hp, alistGet, hp', hk, h] using ih

/-- A key is absent exactly when no entry carries it. -/
theorem alistGet_eq_none {β : Type} (k : String) (l : List (String × β)) :
    alistGet k l = none ↔ ∀ p, p ∈ l → ¬ p.1 = k := by
  induction l with
  | nil => simp [alistGet]
  | cons p rest ih =>
      by_cases h : p.1 = k
      · constructor
        · intro hnone; simp [alistGet, h] at hnone
        · intro hall; exact absurd h (hall p (List.mem_cons_self p rest))
      · constructor
        · intro hnone q hq
          rcases List.mem_cons.mp hq with heq | hq'
          · rw [heq]; exact h
          · exact (ih.mp (by simpa [alistGet, h] using hnone)) q hq'
        · intro hall
          rw [show alistGet k (p :: rest) = alistGet k rest by simp [alistGet, h]]
          exact ih.mpr (fun q hq => hall q (List.mem_cons_of_mem p hq))

/-- Deleting an absent key is a no-op. -/
theorem alistDelete_of_get_none {β : Type} (k : String) (l : List (String × β))
    (h : alistGet k l = none) : alistDelete k l = l := by
  have h' := (alistGet_eq_none k l).mp h
  unfold alistDelete
  apply List.filter_eq_self.mpr
  intro p hp
  simpa using h' p hp

/-- Setting an absent key appends the new entry. -/
theorem alistSet_of_get_none {β : Type} (k : String) (v : β) (l : List (String × β))
    (h : alistGet k l = none) : alistSet k v l = l ++ [(k, v)] := by
  rw [alistGet_eq_none] at h
  induction l with
  | nil => rfl
  | cons p rest ih =>
      have hp : ¬ p.1 = k := h p (List.mem_cons_self p rest)
      have hrest : ∀ q, q ∈ rest → ¬ q.1 = k :=
        fun q hq => h q (List.mem_cons_of_mem p hq)
      simp only [alistSet, if_neg hp, List.cons_append]
      exact congrArg (p :: ·) (ih hrest)

/-- Deleting a freshly appended key restores the original map. -/
theorem alistDelete_append {β : Type} (k : String) (v : β) (l : List (String × β))
    (h : alistGet k l = none) : alistDelete k (l ++ [(k, v)]) = l := by
  rw [alistGet_eq_none] at h
  induction l with
  | nil => simp [alistDelete]
  | cons p rest ih =>
      have hp : ¬ p.1 = k := h p (List.mem_cons_self p rest)
      have hrest : ∀ q, q ∈ rest → ¬ q.1 = k :=
        fun q hq => h q (List.mem_cons_of_mem p hq)
      have h2 := ih hrest
      simp only [alistDelete] at h2
      simp only [List.cons_append, alistDelete, List.filter_cons]
      simp [hp]
      exact fun a b hab => hrest (a, b) hab

/-- Keys after `alistSet`: unchanged when present, appended when absent. -/
theorem keys_alistSet {β : Type} (k : String) (v : β) (l : List (String × β)) :
    (alistSet k v l).map Prod.fst =
      if k ∈ l.map Prod.fst then l.map Prod.fst else l.map Prod.fst ++ [k] := by
  induction l with
  | nil => simp [alistSet]
  | cons p rest ih =>
      by_cases hp : p.1 = k
      · simp [alistSet, hp]
      · have hne : ¬ k = p.1 := fun hh => hp hh.symm
        by_cases hk : k ∈ rest.map Prod.fst <;>
          simp [alistSet, hp, ih, hk, hne]

/-- `alistSet` keeps the key list duplicate-free. -/
theorem nodupKeys_set {β : Type} (k : String) (v : β) (l : List (String × β))
    (h : nodupKeys l) : nodupKeys (alistSet k v l) := by
  unfold nodupKeys at h ⊢
  rw [keys_alistSet]
  by_cases hk : k ∈ l.map Prod.fst
  · simpa [hk] using h
  · rw [if_neg hk]
    refine List.Nodup.append h (List.nodup_singleton k) ?_
    intro a ha hb
    rw [List.mem_singleton] at hb
    exact hk (hb ▸ ha)

/-- `alistDelete` keeps the key list duplicate-free. -/
theorem nodupKeys_delete {β : Type} (k : String) (l : List (String × β))
    (h : nodupKeys l) : nodupKeys (alistDelete k l) := by
  unfold nodupKeys at h ⊢
  exact List.Nodup.sublist ((List.filter_sublist l).map Prod.fst) h

/-- Number of entries of a given key (the claim's "active records per
name"). -/
def countKey {β : Type} (k : String) (l : List (String × β)) : Nat :=
  (l.map Prod.fst).count k

/-- Over a duplicate-free map, `alistSet` leaves exactly one entry for the
key. -/
theorem countKey_set {β : Type} (k : String) (v : β) (l : List (String × β))
    (h : nodupKeys l) : countKey k (alistSet k v l) = 1 := by
  unfold countKey
  rw [keys_alistSet]
  by_cases hk : k ∈ l.map Prod.fst
  · rw [if_pos hk]
    exact List.count_eq_one_of_mem h hk
  · rw [if_neg hk]
    simp [List.count_append, List.count_eq_zero_of_not_mem hk]

/-- Over a duplicate-free map, no key has more than one entry. -/
theorem countKey_le_one {β : Type} (k : String) (l : List (String × β))
    (h : nodupKeys l) : countKey k l ≤ 1 :=
  List.nodup_iff_count_le_one.mp h k

/-! ## Element-manager lemmas -/

/-- Removing an unknown id is a no-op returning `false`. -/
theorem removeElement_none (id : String) (s : MgrState)
    (h : alistGet id s.elements = none) : removeElement id s = (false, s) := by
  simp [removeElement, h]

/-- Removing an element with no scene object is a no-op returning `false`. -/
theorem removeElement_noobj (id : String) (s : MgrState) (e : MapElement)
    (h : alistGet id s.elements = some e) (h2 : e.object3D = none) :
    removeElement id s = (false, s) := by
  simp [removeElement, h, h2]

/-- The detach bookkeeping never touches the `elements` map. -/
theorem detachElement_elements (e : MapElement) (obj : Nat) (s : MgrState) :
    (detachElement e obj s).elements = s.elements := by
  cases he : e.etype <;> simp [detachElement, he]

/-- Removing a live element succeeds and deletes exactly its map entry. -/
theorem removeElement_some (id : String) (s : MgrState) (e : MapElement) (obj : Nat)
    (h : alistGet id s.elements = some e) (h2 : e.object3D = some obj) :
    (removeElement id s).1 = true ∧
      (removeElement id s).2.elements = alistDelete id s.elements := by
  simp [removeElement, h, h2, detachElement_elements]

/-- A key is absent from the map exactly when it is not among the keys. -/
theorem alistGet_eq_none_iff_keys {β : Type} (k : String) (l : List (String × β)) :
    alistGet k l = none ↔ ¬ k ∈ l.map Prod.fst := by
  rw [alistGet_eq_none]
  constructor
  · intro h hk
    rcases List.mem_map.mp hk with ⟨p, hp, hfst⟩
    exact h p hp hfst
  · intro h p hp hfst
    exact h (hfst ▸ List.mem_map_of_mem Prod.fst hp)

/-- Over duplicate-free keys, a member entry is what lookup returns. -/
theorem alistGet_of_mem {β : Type} (k : String) (v : β) (l : List (String × β))
    (hnd : nodupKeys l) (h : (k, v) ∈ l) : alistGet k l = some v := by
  induction l with
  | nil => cases h
  | cons p rest ih =>
      unfold nodupKeys at hnd
      simp only [List.map_cons, List.nodup_cons] at hnd
      rcases List.mem_cons.mp h with heq | hmem
      · rw [← heq]
        simp [alistGet]
      · by_cases hp : p.1 = k
        · exfalso
          apply hnd.1
          rw [hp]
          exact List.mem_map_of_mem Prod.fst hmem
        · simpa [alistGet, hp] using ih hnd.2 hmem

/-- Batch removal of distinct, live ids: exactly those keys disappear. -/
theorem removeElements_get (ids : List String) :
    ∀ (s : MgrState), ids.Nodup →
    (∀ id ∈ ids, ∃ e, alistGet id s.elements = some e ∧ e.object3D.isSome) →
    ∀ k, alistGet k (removeElements ids s).elements =
      if k ∈ ids then none else alistGet k s.elements := by
  induction ids with
  | nil => intro s _ _ k; simp [removeElements]
  | cons id0 tl ih =>
      intro s hnd hpres k
      obtain ⟨e, hget, hobj⟩ := hpres id0 (List.mem_cons_self id0 tl)
      obtain ⟨obj, hobj'⟩ := Option.isSome_iff_exists.mp hobj
      have hstep := (removeElement_some id0 s e obj hget hobj').2
      have hfold : removeElements (id0 :: tl) s =
          removeElements tl (removeElement id0 s).2 := rfl
      have hnd' := (List.nodup_cons.mp hnd).2
      have hid0 : ¬ id0 ∈ tl := (List.nodup_cons.mp hnd).1
      have hpres' : ∀ id ∈ tl, ∃ e', alistGet id (removeElement id0 s).2.elements = some e' ∧
          e'.object3D.isSome := by
        intro id hid
        obtain ⟨e', hget', hobj''⟩ := hpres id (List.mem_cons_of_mem id0 hid)
        refine ⟨e', ?_, hobj''⟩
        rw [hstep, alistGet_delete_ne id0 id s.elements
          (fun hh => hid0 (hh ▸ hid))]
        exact hget'
      rw [hfold, ih (removeElement id0 s).2 hnd' hpres' k]
      by_cases hk1 : k ∈ tl
      · simp [hk1]
      · by_cases hk0 : k = id0
        · rw [hk0]
          simp only [hid0, if_neg, List.mem_cons, true_or, if_pos, hstep]
          simp [alistGet_delete_self]
        · have : ¬ k ∈ id0 :: tl := by
            simp [List.mem_cons, hk0, hk1]
          simp only [hk1, if_neg, not_false_iff, this, hstep]
          exact alistGet_delete_ne id0 k s.elements hk0

/-- `shouldRemoveId` is false exactly on the protected `label-0..31` ids. -/
theorem shouldRemoveId_iff (id : String) :
    shouldRemoveId id = false ↔ ∃ n, labelNum id = some n ∧ n ≤ 31 := by
  unfold shouldRemoveId
  cases h : labelNum id with
  | none => simp
  | some n => simp [Nat.not_lt]

/-! ## Claim C3: `clearAllElements` removes exactly the unprotected ids -/

/-- C3: `clearAllElements` preserves every live id of the form `label-N`
with `0 ≤ N ≤ 31` and removes every other live id (including `label-N`
with `N > 31` and all non-label ids).  Hypotheses: the element map has
duplicate-free keys and every live element carries a scene object (both
invariants of states built by the manager's own insertions). -/
theorem C3_clearAllElements (s : MgrState)
    (hnd : nodupKeys s.elements)
    (hobj : ∀ p ∈ s.elements, p.2.object3D.isSome) :
    ∀ id : String,
      ((∃ n, labelNum id = some n ∧ n ≤ 31) →
        alistGet id (clearAllElements s).elements = alistGet id s.elements) ∧
      (¬ (∃ n, labelNum id = some n ∧ n ≤ 31) →
        alistGet id (clearAllElements s).elements = none) := by
  intro id
  have hids_nodup : ((s.elements.map Prod.fst).filter shouldRemoveId).Nodup :=
    List.Nodup.filter _ hnd
  have hpres : ∀ i ∈ (s.elements.map Prod.fst).filter shouldRemoveId,
      ∃ e, alistGet i s.elements = some e ∧ e.object3D.isSome := by
    intro i hi
    have hkeys : i ∈ s.elements.map Prod.fst := List.mem_of_mem_filter hi
    rcases List.mem_map.mp hkeys with ⟨p, hp, hfst⟩
    refine ⟨p.2, ?_, hobj p hp⟩
    rw [← hfst]
    exact alistGet_of_mem p.1 p.2 s.elements hnd (by simpa using hp)
  have hmain := removeElements_get _ s hids_nodup hpres
  constructor
  · intro hprot
    have hsr : shouldRemoveId id = false := (shouldRemoveId_iff id).mpr hprot
    have hnotin : ¬ id ∈ (s.elements.map Prod.fst).filter shouldRemoveId := by
      intro hin
      have := List.of_mem_filter hin
      simp [hsr] at this
    rw [show clearAllElements s =
      removeElements ((s.elements.map Prod.fst).filter shouldRemoveId) s from rfl]
    rw [hmain id]
    simp [hnotin]
  · intro hnp
    have hsr : shouldRemoveId id = true := by
      cases hb : shouldRemoveId id
      · exact absurd ((shouldRemoveId_iff id).mp hb) hnp
      · rfl
    rw [show clearAllElements s =
      removeElements ((s.elements.map Prod.fst).filter shouldRemoveId) s from rfl]
    rw [hmain id]
    by_cases hkey : id ∈ s.elements.map Prod.fst
    · have hin : id ∈ (s.elements.map Prod.fst).filter shouldRemoveId :=
        List.mem_filter.mpr ⟨hkey, hsr⟩
      simp [hin]
    · have hnone : alistGet id s.elements = none :=
        (alistGet_eq_none_iff_keys id s.elements).mpr hkey
      have hnotin : ¬ id ∈ (s.elements.map Prod.fst).filter shouldRemoveId :=
        fun hin => hkey (List.mem_of_mem_filter hin)
      simp [hnotin, hnone]

/-- A protected label element used by the C3 witness. -/
def elemLabel3 : MapElement :=
  { id := "label-3", etype := .label, position := [1, 2], object3D := some 0 }

/-- An unprotected spot element used by the C3 witness. -/
def elemSpot1 : MapElement :=
  { id := "spot-1", etype := .spot, position := [3, 4], object3D := some 2,
    dataRing := some 1 }

/-- A two-element manager state used by the C3 witness. -/
def c3State : MgrState :=
  { elements := [("label-3", elemLabel3), ("spot-1", elemSpot1)],
    labelsContainer := [0], spotsContainer := [2], modelsContainer := [],
    linesContainer := [], animatedSpots := [1], flySpots := [], modelMixers := [],
    nextId := 3 }

/-- Witness for C3 at a concrete state: `label-3` survives, `spot-1` goes. -/
theorem C3_clearAllElements_witness :
    alistGet "label-3" (clearAllElements c3State).elements =
      alistGet "label-3" c3State.elements ∧
    alistGet "spot-1" (clearAllElements c3State).elements = none := by
  constructor
  · exact (C3_clearAllElements c3State (by decide) (by decide) "label-3").1
      ⟨3, by decide, by decide⟩
  · refine (C3_clearAllElements c3State (by decide) (by decide) "spot-1").2 ?_
    rintro ⟨n, hn, -⟩
    rw [show labelNum "spot-1" = none from by decide] at hn
    cases hn

/-! ## Claim C7: removing an unknown id is a no-op -/

/-- C7: for an id absent from the element map, `removeElement` returns
`false` and leaves the whole manager state (element map, containers,
animation lists) unchanged; and removing the same id twice always equals
removing it once, so `removeElements` is idempotent on unknown and
repeated ids. -/
theorem C7_removeUnknown_noop (s : MgrState) (id : String)
    (h : alistGet id s.elements = none) :
    removeElement id s = (false, s) ∧
    (∀ (s' : MgrState) (id' : String),
      removeElements [id', id'] s' = removeElements [id'] s') := by
  refine ⟨removeElement_none id s h, ?_⟩
  intro s' id'
  show (removeElement id' (removeElement id' s').2).2 = (removeElement id' s').2
  cases hget : alistGet id' s'.elements with
  | none =>
      rw [removeElement_none id' s' hget]
      rw [removeElement_none id' s' hget]
  | some e =>
      cases hobj : e.object3D with
      | none =>
          rw [removeElement_noobj id' s' e hget hobj]
          rw [removeElement_noobj id' s' e hget hobj]
      | some obj =>
          have h2 := (removeElement_some id' s' e obj hget hobj).2
          have hgone : alistGet id' (removeElement id' s').2.elements = none := by
            rw [h2]
            exact alistGet_delete_self id' s'.elements
          rw [removeElement_none id' (removeElement id' s').2 hgone]

/-- Witness for C7 at a concrete state (the C3 state, unknown id "nope"). -/
theorem C7_removeUnknown_noop_witness :
    removeElement "nope" c3State = (false, c3State) :=
  (C7_removeUnknown_noop c3State "nope" (by decide)).1

/-! ## Claim C4: add-then-remove round trip on the element map -/

/-- C4 (amended): when `e.id` is not already live, `addElements [e]`
followed by `removeElements [e.id]` restores the element map exactly.
(The unamended claim fails when `e.id` is live: the add overwrites the old
entry and the removal then deletes it, see the counterexample.) -/
theorem C4_add_then_remove (env : LoadEnv) (s : MgrState) (e : MapElement)
    (h : alistGet e.id s.elements = none) :
    (removeElements [e.id] (addElements env [e] s)).elements = s.elements := by
  have hone : addElements env [e] s = addOneElement env s e := rfl
  rw [hone]
  have hrem : ∀ s' : MgrState, alistGet e.id s'.elements = none →
      (removeElements [e.id] s').elements = s'.elements := by
    intro s' h'
    show (removeElement e.id s').2.elements = s'.elements
    rw [removeElement_none e.id s' h']
  have hins : ∀ (s' : MgrState) (v : MapElement), v.id = e.id →
      s'.elements = alistSet e.id v s.elements →
      v.object3D.isSome → (removeElements [e.id] s').elements = s.elements := by
    intro s' v _ hv hobj
    obtain ⟨obj, hobj'⟩ := Option.isSome_iff_exists.mp hobj
    have hget : alistGet e.id s'.elements = some v := by
      rw [hv, alistGet_set_self]
    show (removeElement e.id s').2.elements = s.elements
    rw [(removeElement_some e.id s' v obj hget hobj').2, hv,
      alistSet_of_get_none e.id v s.elements h,
      alistDelete_append e.id v s.elements h]
  cases he : e.etype
  case label =>
    by_cases hg : drawGuard e.position
    · exact hins _ { e with object3D := some s.nextId } rfl
        (by simp [addOneElement, he, addLabel, hg]) rfl
    · rw [show addOneElement env s e = s by simp [addOneElement, he, addLabel, hg]]
      exact hrem s h
  case bubble =>
    by_cases hg : drawGuard e.position
    · exact hins _ { e with object3D := some s.nextId } rfl
        (by simp [addOneElement, he, addBubble, hg]) rfl
    · rw [show addOneElement env s e = s by simp [addOneElement, he, addBubble, hg]]
      exact hrem s h
  case spot =>
    by_cases hg : drawGuard e.position
    · exact hins _
        { e with object3D := some (s.nextId + 2), dataRing := some (s.nextId + 1) } rfl
        (by simp [addOneElement, he, addSpot, hg]) rfl
    · rw [show addOneElement env s e = s by simp [addOneElement, he, addSpot, hg]]
      exact hrem s h
  case model =>
    cases hload : env e.modelPath with
    | none =>
        rw [show addOneElement env s e = s by simp [addOneElement, he, addModel, hload]]
        exact hrem s h
    | some hasAnims =>
        exact hins _ { e with object3D := some s.nextId } rfl
          (by simp [addOneElement, he, addModel, hload]) rfl
  case line =>
    exact hins _
      { e with object3D := some (s.nextId + 2), dataFlySpot := some (s.nextId + 1) } rfl
      (by simp [addOneElement, he, addLine]) rfl

/-- A load environment where every model load fails. -/
def envAllFail : LoadEnv := fun _ => none

/-- Witness for C4 (amended) at a concrete state: fresh label id "x". -/
theorem C4_add_then_remove_witness :
    (removeElements ["x"]
      (addElements envAllFail
        [{ id := "x", etype := .label, position := [5, 6], text := "t" }] c3State)).elements =
      c3State.elements :=
  C4_add_then_remove envAllFail c3State
    { id := "x", etype := .label, position := [5, 6], text := "t" } (by decide)

/-- The pre-existing element overwritten in the C4 counterexample. -/
def c4Old : MapElement :=
  { id := "a", etype := .label, position := [1], object3D := some 0 }

/-- A one-element state holding id "a". -/
def c4State : MgrState :=
  { elements := [("a", c4Old)], labelsContainer := [0], spotsContainer := [],
    modelsContainer := [], linesContainer := [], animatedSpots := [], flySpots := [],
    modelMixers := [], nextId := 1 }

/-- Counterexample to C4 as stated: when `e.id` is already live, adding a
new element with the same id and then removing the id does NOT restore the
element map — the original entry for "a" is lost. -/
theorem C4_counterexample :
    ¬ (removeElements ["a"]
        (addElements envAllFail
          [{ id := "a", etype := .label, position := [2, 3], text := "x" }]
          c4State)).elements = c4State.elements := by
  decide

/-! ## Claim C10: draw helpers producing no object insert nothing -/

/-- C10: when the coordinate array is empty, `draw2dLabel` / `draw2dBubble`
/ `drawSpot` produce no object, so `addLabel` / `addBubble` / `addSpot`
leave the whole manager state unchanged (the promise still resolves), and
`getElement` stays `undefined` for the element's (previously unused) id. -/
theorem C10_emptyCoord_noInsert (s : MgrState) (e : MapElement)
    (hpos : e.position = []) (hid : alistGet e.id s.elements = none) :
    addLabel e s = s ∧ addBubble e s = s ∧ addSpot e s = s ∧
    getElement e.id (addLabel e s) = none ∧
    getElement e.id (addBubble e s) = none ∧
    getElement e.id (addSpot e s) = none := by
  have hg : drawGuard e.position = false := by simp [drawGuard, hpos]
  refine ⟨?_, ?_, ?_, ?_, ?_, ?_⟩ <;>
    simp [addLabel, addBubble, addSpot, hg, getElement, hid]

/-- Witness for C10 at a concrete state: empty position, fresh id. -/
theorem C10_emptyCoord_noInsert_witness :
    addSpot { id := "y", etype := .spot, position := [] } c3State = c3State ∧
    getElement "y" (addLabel { id := "y", etype := .label, position := [] } c3State) =
      none := by
  refine ⟨(C10_emptyCoord_noInsert c3State
      { id := "y", etype := .spot, position := [] } rfl (by decide)).2.2.1, ?_⟩
  exact (C10_emptyCoord_noInsert c3State
      { id := "y", etype := .label, position := [] } rfl (by decide)).2.2.2.1

/-! ## Claim C8: a failed model load affects only that element -/

/-- A failed model load makes that element's creation a no-op on the
manager state. -/
theorem addOneElement_model_fail (env : LoadEnv) (s : MgrState) (e : MapElement)
    (hm : e.etype = .model) (hfail : env e.modelPath = none) :
    addOneElement env s e = s := by
  simp [addOneElement, hm, addModel, hfail]

/-- Creating one element never touches lookups of other ids. -/
theorem addOneElement_get_other (env : LoadEnv) (s : MgrState) (y : MapElement)
    (k : String) (hk : ¬ y.id = k) :
    alistGet k (addOneElement env s y).elements = alistGet k s.elements := by
  have hne : ¬ k = y.id := fun hh => hk hh.symm
  cases he : y.etype
  case label =>
    by_cases hg : drawGuard y.position <;>
      simp [addOneElement, he, addLabel, hg, alistGet_set_ne _ _ _ _ hne]
  case bubble =>
    by_cases hg : drawGuard y.position <;>
      simp [addOneElement, he, addBubble, hg, alistGet_set_ne _ _ _ _ hne]
  case spot =>
    by_cases hg : drawGuard y.position <;>
      simp [addOneElement, he, addSpot, hg, alistGet_set_ne _ _ _ _ hne]
  case model =>
    cases hload : env y.modelPath <;>
      simp [addOneElement, he, addModel, hload, alistGet_set_ne _ _ _ _ hne]
  case line =>
    simp [addOneElement, he, addLine, alistGet_set_ne _ _ _ _ hne]

/-- A batch never creates ids that are not in it. -/
theorem addElements_get_absent (env : LoadEnv) (k : String) :
    ∀ (batch : List MapElement) (s : MgrState), (∀ y ∈ batch, ¬ y.id = k) →
    alistGet k (addElements env batch s).elements = alistGet k s.elements := by
  intro batch
  induction batch with
  | nil => intro s _; rfl
  | cons y tl ih =>
      intro s hall
      have hy : ¬ y.id = k := hall y (List.mem_cons_self y tl)
      have htl : ∀ z ∈ tl, ¬ z.id = k :=
        fun z hz => hall z (List.mem_cons_of_mem y hz)
      show alistGet k (addElements env tl (addOneElement env s y)).elements =
        alistGet k s.elements
      rw [ih (addOneElement env s y) htl, addOneElement_get_other env s y k hy]

/-- C8: in a batch where one model element's binary-asset load fails, only
that element's creation is dropped — the batch behaves exactly like the
batch without it, so every other element is still created; the failed
element is not inserted; and no variant other than `model` consults the
external load environment at all (they resolve without waiting on it). -/
theorem C8_modelFailure_isolated (env : LoadEnv) (s : MgrState)
    (l1 l2 : List MapElement) (e : MapElement)
    (hm : e.etype = .model) (hfail : env e.modelPath = none) :
    addElements env (l1 ++ e :: l2) s = addElements env (l1 ++ l2) s ∧
    (∀ (x : MapElement) (s' : MgrState) (env1 env2 : LoadEnv),
      ¬ x.etype = .model → addOneElement env1 s' x = addOneElement env2 s' x) ∧
    (alistGet e.id s.elements = none → (∀ y ∈ l1 ++ l2, ¬ y.id = e.id) →
      alistGet e.id (addElements env (l1 ++ e :: l2) s).elements = none) := by
  have hskip : addElements env (l1 ++ e :: l2) s = addElements env (l1 ++ l2) s := by
    show (l1 ++ e :: l2).foldl (addOneElement env) s =
      (l1 ++ l2).foldl (addOneElement env) s
    rw [List.foldl_append, List.foldl_append, List.foldl_cons,
      addOneElement_model_fail env _ e hm hfail]
  refine ⟨hskip, ?_, ?_⟩
  · intro x s' env1 env2 hx
    cases he : x.etype
    case model => exact absurd he hx
    all_goals simp [addOneElement, he, addLabel, addBubble, addSpot, addLine]
  · intro hid hall
    rw [hskip]
    exact (addElements_get_absent env e.id (l1 ++ l2) s hall).trans hid

/-- Witness for C8: a concrete batch label ++ [failing model] ++ spot. -/
theorem C8_modelFailure_isolated_witness :
    addElements envAllFail
      [{ id := "l1", etype := .label, position := [1], text := "a" },
       { id := "m1", etype := .model, position := [2], modelPath := "x.glb" },
       { id := "s1", etype := .spot, position := [3] }] c4State =
    addElements envAllFail
      [{ id := "l1", etype := .label, position := [1], text := "a" },
       { id := "s1", etype := .spot, position := [3] }] c4State ∧
    alistGet "m1" (addElements envAllFail
      [{ id := "l1", etype := .label, position := [1], text := "a" },
       { id := "m1", etype := .model, position := [2], modelPath := "x.glb" },
       { id := "s1", etype := .spot, position := [3] }] c4State).elements = none := by
  have h := C8_modelFailure_isolated envAllFail c4State
    [{ id := "l1", etype := .label, position := [1], text := "a" }]
    [{ id := "s1", etype := .spot, position := [3] }]
    { id := "m1", etype := .model, position := [2], modelPath := "x.glb" }
    rfl rfl
  exact ⟨h.1, h.2.2 (by decide) (by decide)⟩

/-! ## Claim C9: the spot-ring pulse animation -/

/-- C9 (amended): on any tick at which the ring's `_s` parameter holds a
number `s0`, `updateAnimations` adds `0.01`, applies the new value as the
uniform scale, sets opacity to `2 - _s` while `_s ≤ 2`, and resets `_s` to
1 (leaving opacity) once `_s` exceeds 2; and the registered-ring list is
advanced pointwise.  (The unamended claim fails on the very first tick
after `addSpot`, where `_s` is still undefined, see the counterexample.) -/
theorem C9_ringPulse (r : SpotRing) (s0 : ℚ) (h : r.sVal = .num s0) :
    (updateRing r).scale =
      (.num (s0 + 1/100), .num (s0 + 1/100), .num (s0 + 1/100)) ∧
    (s0 + 1/100 ≤ 2 → (updateRing r).sVal = .num (s0 + 1/100) ∧
      (updateRing r).opacity = 2 - (s0 + 1/100)) ∧
    (¬ s0 + 1/100 ≤ 2 → (updateRing r).sVal = .num 1 ∧
      (updateRing r).opacity = r.opacity) ∧
    updateAnimationsRings = fun l => l.map updateRing := by
  refine ⟨?_, ?_, ?_, rfl⟩
  · by_cases hle : s0 + (100:ℚ)⁻¹ ≤ 2 <;> simp [updateRing, jAdd, h, hle]
  · intro hle
    have hle' : s0 + (100:ℚ)⁻¹ ≤ 2 := by rwa [← one_div]
    simp [updateRing, jAdd, h, hle']
  · intro hle
    have hle' : ¬ s0 + (100:ℚ)⁻¹ ≤ 2 := by rwa [← one_div]
    simp [updateRing, jAdd, h, hle']

/-- Witness for C9 (amended) at `_s = 1`. -/
theorem C9_ringPulse_witness :
    (updateRing { sVal := .num 1, scale := (.num 1, .num 1, .num 1), opacity := 1 }).sVal =
      .num (1 + 1/100) ∧
    (updateRing { sVal := .num 1, scale := (.num 1, .num 1, .num 1), opacity := 1 }).opacity =
      2 - (1 + 1/100) := by
  exact (C9_ringPulse { sVal := .num 1, scale := (.num 1, .num 1, .num 1), opacity := 1 }
    1 rfl).2.1 (by norm_num)

/-- The freshly drawn ring of the C9 counterexample (`_s` undefined). -/
def c9Ring : SpotRing := { sVal := .undef, scale := (.num 1, .num 1, .num 1), opacity := 1 }

/-- Counterexample to C9 as stated: on the very first tick after `addSpot`,
`_s` is `undefined`, so `undefined + 0.01` is `NaN`: the parameter is not
increased by `0.01`, the applied scale is `NaN`, no opacity fade happens,
and `_s` is reset to 1 even though it never exceeded 2. -/
theorem C9_counterexample :
    drawSpotRing [1, 2] = some c9Ring ∧
    c9Ring.sVal = .undef ∧
    jAdd c9Ring.sVal (.num (1/100)) = .nan ∧
    jLe (jAdd c9Ring.sVal (.num (1/100))) 2 = false ∧
    (updateRing c9Ring).sVal = .num 1 ∧
    (updateRing c9Ring).scale = (.nan, .nan, .nan) ∧
    (updateRing c9Ring).opacity = c9Ring.opacity := by
  decide

/-! ## Highlight-subsystem invariance lemmas -/

/-- `setTop` never changes the `isChangeColor` mark of any mesh. -/
theorem setTop_flag (c e : Color) (mid : Nat) (f : Nat → Mesh) (i : Nat) :
    ((setTop c e mid f) i).isChangeColor = (f i).isChangeColor := by
  unfold setTop
  by_cases h : i = mid <;> simp [h]

/-- One apply-highlight step keeps every `isChangeColor` mark. -/
theorem applyHighlightStep_flag (f : Nat → Mesh) (mid i : Nat) :
    ((applyHighlightStep f mid) i).isChangeColor = (f i).isChangeColor := by
  unfold applyHighlightStep
  cases hmat : (f mid).material with
  | single m => by_cases hk : m.kind = .phong <;> simp [hk, setTop_flag]
  | array ms =>
      cases ms with
      | nil => rfl
      | cons m0 rest => by_cases hk : m0.kind = .phong <;> simp [hk, setTop_flag]

/-- `applyHighlightMaterial` keeps regions, record map, timers, tweens and
every `isChangeColor` mark. -/
theorem applyHighlight_inv (mids : List Nat) (s : HState) :
    (applyHighlightMaterial mids s).regions = s.regions ∧
    (applyHighlightMaterial mids s).highlighted = s.highlighted ∧
    (applyHighlightMaterial mids s).timers = s.timers ∧
    (applyHighlightMaterial mids s).tweens = s.tweens ∧
    (∀ i, ((applyHighlightMaterial mids s).meshes i).isChangeColor =
      (s.meshes i).isChangeColor) := by
  refine ⟨rfl, rfl, rfl, rfl, ?_⟩
  show ∀ i, ((mids.foldl applyHighlightStep s.meshes) i).isChangeColor =
    (s.meshes i).isChangeColor
  suffices h : ∀ (l : List Nat) (f : Nat → Mesh) (i : Nat),
      ((l.foldl applyHighlightStep f) i).isChangeColor = (f i).isChangeColor from
    fun i => h mids s.meshes i
  intro l
  induction l with
  | nil => intro f i; rfl
  | cons mid tl ih =>
      intro f i
      calc ((tl.foldl applyHighlightStep (applyHighlightStep f mid)) i).isChangeColor
          = ((applyHighlightStep f mid) i).isChangeColor := ih _ i
        _ = (f i).isChangeColor := applyHighlightStep_flag f mid i

/-- `installTween` keeps regions, record map, timers and every mark. -/
theorem installTween_inv (mid : Nat) (cur orig : Material) (s : HState) :
    (installTween mid cur orig s).regions = s.regions ∧
    (installTween mid cur orig s).highlighted = s.highlighted ∧
    (installTween mid cur orig s).timers = s.timers ∧
    (∀ i, ((installTween mid cur orig s).meshes i).isChangeColor =
      (s.meshes i).isChangeColor) :=
  ⟨rfl, rfl, rfl, fun i => setTop_flag _ _ mid s.meshes i⟩

/-- One restore step keeps regions, record map, timers and every mark. -/
theorem restoreStepFn_inv (origs : List Material) (acc : HState × Nat) (mid : Nat) :
    (restoreStepFn origs acc mid).1.regions = acc.1.regions ∧
    (restoreStepFn origs acc mid).1.highlighted = acc.1.highlighted ∧
    (restoreStepFn origs acc mid).1.timers = acc.1.timers ∧
    (∀ i, ((restoreStepFn origs acc mid).1.meshes i).isChangeColor =
      (acc.1.meshes i).isChangeColor) := by
  unfold restoreStepFn
  cases hmat : (acc.1.meshes mid).material with
  | single m =>
      by_cases h : acc.2 < origs.length
      · simp only [hmat, dif_pos h]
        split
        · exact installTween_inv mid m _ acc.1
        · exact ⟨rfl, rfl, rfl, fun _ => rfl⟩
      · simp [hmat, dif_neg h]
  | array ms =>
      cases ms with
      | nil => simp [hmat]
      | cons m0 rest =>
          by_cases h : acc.2 < origs.length
          · simp only [hmat, dif_pos h]
            split
            · exact installTween_inv mid m0 _ acc.1
            · exact ⟨rfl, rfl, rfl, fun _ => rfl⟩
          · simp [hmat, dif_neg h]

/-- The whole restore loop keeps regions, record map, timers and marks. -/
theorem restoreFold_inv (origs : List Material) (mids : List Nat) :
    ∀ (acc : HState × Nat),
    ((mids.foldl (restoreStepFn origs) acc).1.regions = acc.1.regions) ∧
    ((mids.foldl (restoreStepFn origs) acc).1.highlighted = acc.1.highlighted) ∧
    ((mids.foldl (restoreStepFn origs) acc).1.timers = acc.1.timers) ∧
    (∀ i, ((mids.foldl (restoreStepFn origs) acc).1.meshes i).isChangeColor =
      (acc.1.meshes i).isChangeColor) := by
  induction mids with
  | nil => intro acc; exact ⟨rfl, rfl, rfl, fun _ => rfl⟩
  | cons mid tl ih =>
      intro acc
      have hstep := restoreStepFn_inv origs acc mid
      have hrec := ih (restoreStepFn origs acc mid)
      refine ⟨hrec.1.trans hstep.1, hrec.2.1.trans hstep.2.1,
        hrec.2.2.1.trans hstep.2.2.1, fun i => (hrec.2.2.2 i).trans (hstep.2.2.2 i)⟩

/-- `restoreRegionMaterial` keeps regions, timers and marks, and deletes
exactly the region's record (when present). -/
theorem restore_inv (name : String) (s : HState) :
    (restoreRegionMaterial name s).regions = s.regions ∧
    (restoreRegionMaterial name s).timers = s.timers ∧
    (∀ i, ((restoreRegionMaterial name s).meshes i).isChangeColor =
      (s.meshes i).isChangeColor) ∧
    (restoreRegionMaterial name s).highlighted =
      (match alistGet name s.highlighted with
       | none => s.highlighted
       | some _ => alistDelete name s.highlighted) := by
  unfold restoreRegionMaterial
  cases h : alistGet name s.highlighted with
  | none => exact ⟨rfl, rfl, fun _ => rfl, rfl⟩
  | some info =>
      have hfold := restoreFold_inv info.originalMaterials info.meshes (s, 0)
      refine ⟨hfold.1, hfold.2.2.1, hfold.2.2.2, ?_⟩
      show alistDelete name
          (info.meshes.foldl (restoreStepFn info.originalMaterials) (s, 0)).1.highlighted =
        alistDelete name s.highlighted
      rw [hfold.2.1]

/-- `clearRegionHighlight` keeps regions and marks, filters the region's
timers, and deletes exactly the region's record (when present). -/
theorem clear_inv (name : String) (s : HState) :
    ((clearRegionHighlight name s).2).regions = s.regions ∧
    (∀ i, (((clearRegionHighlight name s).2).meshes i).isChangeColor =
      (s.meshes i).isChangeColor) ∧
    ((clearRegionHighlight name s).2).highlighted =
      (match alistGet name s.highlighted with
       | none => s.highlighted
       | some _ => alistDelete name s.highlighted) := by
  unfold clearRegionHighlight
  cases h : alistGet name s.highlighted with
  | none => exact ⟨rfl, fun _ => rfl, rfl⟩
  | some info =>
      have hr := restore_inv name { s with timers := s.timers.filter (fun p => ¬ p.1 = name) }
      exact ⟨hr.1, hr.2.2.1, by rw [hr.2.2.2]; cases h2 : alistGet name s.highlighted <;>
        simp_all⟩

/-- After `clearRegionHighlight` the region has no record. -/
theorem clear_get_self (name : String) (s : HState) :
    alistGet name ((clearRegionHighlight name s).2).highlighted = none := by
  rw [(clear_inv name s).2.2]
  cases h : alistGet name s.highlighted with
  | none => exact h
  | some info => exact alistGet_delete_self name s.highlighted

/-- `captureIds` only consults the `isChangeColor` marks. -/
theorem captureIds_congr (node : RegionNode) (f g : Nat → Mesh)
    (h : ∀ i, (f i).isChangeColor = (g i).isChangeColor) :
    captureIds node f = captureIds node g := by
  unfold captureIds
  exact List.filter_congr (fun mid _ => by rw [h mid])

/-- Highlighting a name that already has a record equals clearing it first
(the code's own first step). -/
theorem hl_restart (name : String) (d : Nat) (s : HState)
    (h : (alistGet name s.highlighted).isSome = true) :
    highlightRegion name d s =
      highlightRegion name d ((clearRegionHighlight name s).2) := by
  unfold highlightRegion
  rw [if_pos h, if_neg (by rw [clear_get_self]; simp)]

/-- `highlightRegion` on a record-free name: explicit success result. -/
theorem hl_success_spec (name : String) (d : Nat) (s1 : HState) (node : RegionNode)
    (hrec : alistGet name s1.highlighted = none)
    (hfind : findRegion name s1.regions = some node)
    (hne : ¬ captureIds node s1.meshes = []) :
    highlightRegion name d s1 = (true,
      { applyHighlightMaterial (captureIds node s1.meshes) s1 with
        timers := s1.timers ++ [(name, d)],
        highlighted := alistSet name
          ⟨captureIds node s1.meshes, captureOrigs node s1.meshes⟩ s1.highlighted }) := by
  cases hc : captureIds node s1.meshes with
  | nil => exact absurd hc hne
  | cons a l =>
      simp [highlightRegion, hrec, hfind, hc]
      exact ⟨rfl, rfl⟩

/-- `highlightRegion` on a record-free name with no usable region: explicit
failure with an unchanged state. -/
theorem hl_fail_spec (name : String) (d : Nat) (s1 : HState)
    (hrec : alistGet name s1.highlighted = none)
    (hfail : ∀ node, findRegion name s1.regions = some node →
      captureIds node s1.meshes = []) :
    highlightRegion name d s1 = (false, s1) := by
  cases hfind : findRegion name s1.regions with
  | none => simp [highlightRegion, hrec, hfind]
  | some node => simp [highlightRegion, hrec, hfind, hfail node hfind]

/-- `highlightRegion` keeps the regions and the `isChangeColor` marks. -/
theorem hl_skel (name : String) (d : Nat) (s : HState) :
    ((highlightRegion name d s).2).regions = s.regions ∧
    (∀ i, (((highlightRegion name d s).2).meshes i).isChangeColor =
      (s.meshes i).isChangeColor) := by
  have fresh : ∀ (s1 : HState), alistGet name s1.highlighted = none →
      ((highlightRegion name d s1).2).regions = s1.regions ∧
      (∀ i, (((highlightRegion name d s1).2).meshes i).isChangeColor =
        (s1.meshes i).isChangeColor) := by
    intro s1 hrec
    cases hfind : findRegion name s1.regions with
    | none => simp [highlightRegion, hrec, hfind]
    | some node =>
        cases hc : captureIds node s1.meshes with
        | nil => simp [highlightRegion, hrec, hfind, hc]
        | cons a l =>
            have happ := applyHighlight_inv (captureIds node s1.meshes) s1
            rw [hl_success_spec name d s1 node hrec hfind (by rw [hc]; simp)]
            exact ⟨happ.1, happ.2.2.2.2⟩
  by_cases hrec : (alistGet name s.highlighted).isSome
  · rw [hl_restart name d s hrec]
    have h1 := fresh ((clearRegionHighlight name s).2) (clear_get_self name s)
    exact ⟨h1.1.trans (clear_inv name s).1,
      fun i => (h1.2 i).trans ((clear_inv name s).2.1 i)⟩
  · have hrec' : alistGet name s.highlighted = none := by
      cases hga : alistGet name s.highlighted
      · rfl
      · rw [hga] at hrec; simp at hrec
    exact fresh s hrec'

/-- A successful highlight presupposes a matched region with a non-empty
capture (in terms of the pre-call state). -/
theorem hl_true_elim (name : String) (d : Nat) (s : HState)
    (h : (highlightRegion name d s).1 = true) :
    ∃ node, findRegion name s.regions = some node ∧
      ¬ captureIds node s.meshes = [] := by
  have fresh : ∀ (s1 : HState), alistGet name s1.highlighted = none →
      (highlightRegion name d s1).1 = true →
      ∃ node, findRegion name s1.regions = some node ∧
        ¬ captureIds node s1.meshes = [] := by
    intro s1 hrec h1
    by_contra hno
    push_neg at hno
    have hfail : ∀ node, findRegion name s1.regions = some node →
        captureIds node s1.meshes = [] := by
      intro node hf
      by_contra hcap
      exact hcap (hno node hf)
    rw [hl_fail_spec name d s1 hrec hfail] at h1
    simp at h1
  by_cases hrec : (alistGet name s.highlighted).isSome
  · rw [hl_restart name d s hrec] at h
    obtain ⟨node, hfind, hcap⟩ :=
      fresh ((clearRegionHighlight name s).2) (clear_get_self name s) h
    refine ⟨node, ?_, ?_⟩
    · rw [← (clear_inv name s).1]; exact hfind
    · rw [← captureIds_congr node ((clearRegionHighlight name s).2).meshes s.meshes
        (clear_inv name s).2.1]
      exact hcap
  · have hrec' : alistGet name s.highlighted = none := by
      cases hga : alistGet name s.highlighted
      · rfl
      · rw [hga] at hrec; simp at hrec
    exact fresh s hrec' h

/-- A successful highlight installs a record for the name and, over
duplicate-free keys, leaves exactly one record for it. -/
theorem hl_record_of_true (name : String) (d : Nat) (s : HState)
    (hnd : nodupKeys s.highlighted)
    (h : (highlightRegion name d s).1 = true) :
    (alistGet name ((highlightRegion name d s).2).highlighted).isSome = true ∧
    countKey name ((highlightRegion name d s).2).highlighted = 1 := by
  have fresh : ∀ (s1 : HState), alistGet name s1.highlighted = none →
      nodupKeys s1.highlighted →
      (highlightRegion name d s1).1 = true →
      (alistGet name ((highlightRegion name d s1).2).highlighted).isSome = true ∧
      countKey name ((highlightRegion name d s1).2).highlighted = 1 := by
    intro s1 hrec hnd1 h1
    cases hfind : findRegion name s1.regions with
    | none =>
        rw [hl_fail_spec name d s1 hrec (fun node hf => by rw [hfind] at hf; cases hf)]
          at h1
        simp at h1
    | some node =>
        by_cases hcap : captureIds node s1.meshes = []
        · rw [hl_fail_spec name d s1 hrec (fun node' hf => by
            rw [hfind] at hf; cases hf; exact hcap)] at h1
          simp at h1
        · rw [hl_success_spec name d s1 node hrec hfind hcap]
          constructor
          · show (alistGet name (alistSet name _ s1.highlighted)).isSome = true
            rw [alistGet_set_self]
            rfl
          · show countKey name (alistSet name _ s1.highlighted) = 1
            exact countKey_set name _ s1.highlighted hnd1
  by_cases hrec : (alistGet name s.highlighted).isSome
  · rw [hl_restart name d s hrec] at h ⊢
    refine fresh ((clearRegionHighlight name s).2) (clear_get_self name s) ?_ h
    rw [(clear_inv name s).2.2]
    cases h2 : alistGet name s.highlighted with
    | none => exact hnd
    | some info => exact nodupKeys_delete name s.highlighted hnd
  · have hrec' : alistGet name s.highlighted = none := by
      cases hga : alistGet name s.highlighted
      · rfl
      · rw [hga] at hrec; simp at hrec
    exact fresh s hrec' hnd h

/-- Every public highlight operation keeps the record keys duplicate-free. -/
theorem hl_nodup (name : String) (d : Nat) (s : HState)
    (hnd : nodupKeys s.highlighted) :
    nodupKeys ((highlightRegion name d s).2).highlighted := by
  have fresh : ∀ (s1 : HState), alistGet name s1.highlighted = none →
      nodupKeys s1.highlighted →
      nodupKeys ((highlightRegion name d s1).2).highlighted := by
    intro s1 hrec hnd1
    cases hfind : findRegion name s1.regions with
    | none => rw [hl_fail_spec name d s1 hrec (fun node hf => by
        rw [hfind] at hf; cases hf)]; exact hnd1
    | some node =>
        by_cases hcap : captureIds node s1.meshes = []
        · rw [hl_fail_spec name d s1 hrec (fun node' hf => by
            rw [hfind] at hf; cases hf; exact hcap)]
          exact hnd1
        · rw [hl_success_spec name d s1 node hrec hfind hcap]
          exact nodupKeys_set name _ s1.highlighted hnd1
  have hclr_nodup : nodupKeys (((clearRegionHighlight name s).2)).highlighted := by
    rw [(clear_inv name s).2.2]
    cases h2 : alistGet name s.highlighted with
    | none => exact hnd
    | some info => exact nodupKeys_delete name s.highlighted hnd
  by_cases hrec : (alistGet name s.highlighted).isSome
  · rw [hl_restart name d s hrec]
    exact fresh ((clearRegionHighlight name s).2) (clear_get_self name s) hclr_nodup
  · have hrec' : alistGet name s.highlighted = none := by
      cases hga : alistGet name s.highlighted
      · rfl
      · rw [hga] at hrec; simp at hrec
    exact fresh s hrec' hnd

/-- `clearRegionHighlight` keeps the record keys duplicate-free. -/
theorem clear_nodup (name : String) (s : HState)
    (hnd : nodupKeys s.highlighted) :
    nodupKeys (((clearRegionHighlight name s).2)).highlighted := by
  rw [(clear_inv name s).2.2]
  cases h2 : alistGet name s.highlighted with
  | none => exact hnd
  | some info => exact nodupKeys_delete name s.highlighted hnd

/-! ## Claim C5: a failing highlight has no side effects -/

/-- C5 (amended): when the named region has no active record, a
`highlightRegion` call that matches no region node — or matches one with
no highlightable mesh — returns `false` and leaves the whole state
untouched: no material changes, no timer is scheduled, the record map is
unchanged (other regions may be highlighted).  (As stated over every prior
state the claim fails: when the *named* region already has a record the
failing call still reverts and removes it first, see the
counterexample.) -/
theorem C5_failedHighlight_noSideEffects (s : HState) (regionName : String)
    (duration : Nat)
    (hrec : alistGet regionName s.highlighted = none)
    (hfail : ∀ node, findRegion regionName s.regions = some node →
      captureIds node s.meshes = []) :
    highlightRegion regionName duration s = (false, s) :=
  hl_fail_spec regionName duration s hrec hfail

/-- A phong mesh that is not marked highlightable. -/
def c5Mesh : Mesh :=
  { material := .single ⟨.phong, ⟨1, 0, 0⟩, ⟨0, 0, 0⟩, 1⟩, isChangeColor := false }

/-- A region node named "Z" whose single mesh is not markable. -/
def c5WNode : RegionNode :=
  { props := ⟨some "Z", none, none, none⟩, meshIds := [0] }

/-- Witness state for C5: region "Z" exists but has no highlightable mesh. -/
def c5WState : HState :=
  { regions := [c5WNode], meshes := fun _ => c5Mesh, highlighted := [],
    timers := [], tweens := [] }

/-- Witness for C5 at a concrete state. -/
theorem C5_failedHighlight_noSideEffects_witness :
    highlightRegion "Z" 1000 c5WState = (false, c5WState) := by
  apply C5_failedHighlight_noSideEffects
  · rfl
  · intro node h
    have hn : node = c5WNode := by
      rw [show findRegion "Z" c5WState.regions = some c5WNode from by decide] at h
      exact (Option.some.inj h).symm
    rw [hn]
    decide

/-- The record held by the C5 counterexample state. -/
def c5CRec : HighlightInfo := { meshes := [], originalMaterials := [] }

/-- Counterexample state for C5: name "X" has an active record but no
region node matches it. -/
def c5CState : HState :=
  { regions := [], meshes := fun _ => c5Mesh, highlighted := [("X", c5CRec)],
    timers := [("X", 5)], tweens := [] }

/-- Counterexample to C5 as stated: with the named region already
highlighted, the failing call still returns `false` but HAS side effects —
it cancels the pending timer and removes the record first. -/
theorem C5_counterexample :
    (highlightRegion "X" 1000 c5CState).1 = false ∧
    ¬ (highlightRegion "X" 1000 c5CState).2.highlighted = c5CState.highlighted ∧
    ¬ (highlightRegion "X" 1000 c5CState).2.timers = c5CState.timers := by
  decide

/-! ## Claim C2: at most one active record per region name -/

/-- C2: (i) two successive `highlightRegion` calls on the same name (the
first succeeding) leave exactly one active record for it, and the second
call also succeeds; (ii) a second call on an already-highlighted name is
literally the same as clearing (reverting) it first; (iii) any sequence of
`highlightRegion` / `clearRegionHighlight` calls keeps the record keys
duplicate-free, so every name has at most one active record at any time. -/
theorem C2_singleRecordPerName (s : HState) (name : String) (d d' : Nat)
    (hnd : nodupKeys s.highlighted)
    (h1 : (highlightRegion name d s).1 = true) :
    countKey name
      ((highlightRegion name d' ((highlightRegion name d s).2)).2).highlighted = 1 ∧
    (highlightRegion name d' ((highlightRegion name d s).2)).1 = true ∧
    (∀ s2 : HState, (alistGet name s2.highlighted).isSome = true →
      highlightRegion name d' s2 =
        highlightRegion name d' ((clearRegionHighlight name s2).2)) ∧
    (∀ (ops : List HOp) (s3 : HState), nodupKeys s3.highlighted →
      nodupKeys (applyHOps ops s3).highlighted) := by
  obtain ⟨node, hfind, hcap⟩ := hl_true_elim name d s h1
  have hskel := hl_skel name d s
  have hfind' : findRegion name ((highlightRegion name d s).2).regions = some node := by
    rw [hskel.1]; exact hfind
  have hcap' : ¬ captureIds node ((highlightRegion name d s).2).meshes = [] := by
    rw [captureIds_congr node ((highlightRegion name d s).2).meshes s.meshes hskel.2]
    exact hcap
  have hnd1 : nodupKeys ((highlightRegion name d s).2).highlighted :=
    hl_nodup name d s hnd
  have h2 : (highlightRegion name d' ((highlightRegion name d s).2)).1 = true := by
    by_cases hrec : (alistGet name ((highlightRegion name d s).2).highlighted).isSome
    · rw [hl_restart name d' _ hrec]
      have hinv := clear_inv name ((highlightRegion name d s).2)
      have hfind2 : findRegion name
          ((clearRegionHighlight name ((highlightRegion name d s).2)).2).regions =
          some node := by
        rw [hinv.1]; exact hfind'
      have hcap2 : ¬ captureIds node
          ((clearRegionHighlight name ((highlightRegion name d s).2)).2).meshes = [] := by
        rw [captureIds_congr node _ ((highlightRegion name d s).2).meshes hinv.2.1]
        exact hcap'
      rw [hl_success_spec name d' _ node (clear_get_self name _) hfind2 hcap2]
    · have hrec' : alistGet name ((highlightRegion name d s).2).highlighted = none := by
        cases hga : alistGet name ((highlightRegion name d s).2).highlighted
        · rfl
        · rw [hga] at hrec; simp at hrec
      rw [hl_success_spec name d' _ node hrec' hfind' hcap']
  refine ⟨?_, h2, ?_, ?_⟩
  · exact (hl_record_of_true name d' _ hnd1 h2).2
  · intro s2 hsome
    exact hl_restart name d' s2 hsome
  · intro ops
    induction ops with
    | nil => intro s3 h3; exact h3
    | cons op tl ih =>
        intro s3 h3
        show nodupKeys (applyHOps tl (applyHOp s3 op)).highlighted
        apply ih
        cases op with
        | hl n dd => exact hl_nodup n dd s3 h3
        | clr n => exact clear_nodup n s3 h3

/-! ## Exact behaviour of the revert on aligned (single-material) records -/

/-- The tween `restoreRegionMaterial` installs for the pair (mesh id,
snapshot) in state `s` — start values are the mesh's current top colours,
`t` has already taken the synchronous first step. -/
def mkTween (s : HState) (p : Nat × Material) : Tween :=
  ⟨p.1, (headMat (s.meshes p.1)).color, p.2.color,
    (headMat (s.meshes p.1)).emissive, p.2.emissive, 1/50⟩

/-- The mesh value after the synchronous first lerp step of its revert. -/
def lerpedMesh (s : HState) (p : Nat × Material) : Mesh :=
  let old := s.meshes p.1
  let hmat := headMat old
  let newMat : Material :=
    { hmat with
      color := Color.lerpColors hmat.color p.2.color (1/50),
      emissive := Color.lerpColors hmat.emissive p.2.emissive (1/50) }
  { old with material := MatSlot.single newMat }

/-- `headMat` of a single-material mesh is that material. -/
theorem headMat_single (mesh : Mesh) (m : Material)
    (h : mesh.material = .single m) : headMat mesh = m := by
  unfold headMat
  rw [h]

/-- `setTop` leaves other meshes alone. -/
theorem setTop_ne (c e : Color) (mid : Nat) (f : Nat → Mesh) (i : Nat)
    (h : ¬ i = mid) : (setTop c e mid f) i = f i := by
  simp [setTop, h]

/-- `setTop` on a single-material mesh rewrites colour and emissive. -/
theorem setTop_self_single (c e : Color) (mid : Nat) (f : Nat → Mesh) (m : Material)
    (h : (f mid).material = .single m) :
    (setTop c e mid f) mid =
      { f mid with material := .single { m with color := c, emissive := e } } := by
  simp [setTop, setTopMat, h]

/-- `setTop` keeps single-material meshes single (any id). -/
theorem setTop_isSingle (c e : Color) (mid : Nat) (f : Nat → Mesh) (i : Nat)
    (h : isSingleMesh (f i)) : isSingleMesh ((setTop c e mid f) i) := by
  obtain ⟨m, hm⟩ := h
  by_cases hi : i = mid
  · subst hi
    refine ⟨{ m with color := c, emissive := e }, ?_⟩
    rw [setTop_self_single c e i f m hm]
  · rw [setTop_ne c e mid f i hi]
    exact ⟨m, hm⟩

/-- `setTop` keeps single-phong meshes single-phong (any id). -/
theorem setTop_singlePhong (c e : Color) (mid : Nat) (f : Nat → Mesh) (i : Nat)
    (h : singlePhong (f i)) : singlePhong ((setTop c e mid f) i) := by
  obtain ⟨m, hm, hk⟩ := h
  by_cases hi : i = mid
  · subst hi
    refine ⟨{ m with color := c, emissive := e }, ?_, hk⟩
    rw [setTop_self_single c e i f m hm]
  · rw [setTop_ne c e mid f i hi]
    exact ⟨m, hm, hk⟩

/-- `installTween` only rewrites the target mesh's top colours. -/
theorem installTween_meshes_ne (mid : Nat) (cur orig : Material) (s : HState) (i : Nat)
    (h : ¬ i = mid) : (installTween mid cur orig s).meshes i = s.meshes i :=
  setTop_ne _ _ mid s.meshes i h

/-- A `flatMap` whose pieces are all singletons is a `map`. -/
theorem flatMap_singletons {α β : Type} (g : α → List β) (g1 : α → β) :
    ∀ (l : List α), (∀ a ∈ l, g a = [g1 a]) → l.flatMap g = l.map g1 := by
  intro l
  induction l with
  | nil => intro _; rfl
  | cons a tl ih =>
      intro h
      rw [List.flatMap_cons, List.map_cons, h a (List.mem_cons_self a tl),
        ih (fun b hb => h b (List.mem_cons_of_mem a hb))]
      rfl

/-- When every captured mesh is single-material, the snapshot list is the
list of their (pre-highlight) materials, one per mesh. -/
theorem captureOrigs_singles (node : RegionNode) (f : Nat → Mesh)
    (h : ∀ mid ∈ captureIds node f, isSingleMesh (f mid)) :
    captureOrigs node f = (captureIds node f).map (fun mid => headMat (f mid)) := by
  unfold captureOrigs
  apply flatMap_singletons
  intro mid hmid
  obtain ⟨m, hm⟩ := h mid hmid
  rw [hm, headMat_single (f mid) m hm]

/-- Exact effect of the restore loop on a record whose meshes are all
single-material phong and whose snapshot list is aligned one-per-mesh:
each mesh gets the synchronous first lerp step and a pending tween whose
end values are its own snapshot, in capture order. -/
theorem restoreFold_spec (origs : List Material) :
    ∀ (mids : List Nat) (k : Nat) (s : HState),
    k + mids.length = origs.length →
    (∀ (j : Nat) (hj : j < origs.length), (origs.get ⟨j, hj⟩).kind = .phong) →
    (∀ mid ∈ mids, singlePhong (s.meshes mid)) →
    mids.Nodup →
    ((mids.foldl (restoreStepFn origs) (s, k)).1.tweens =
       s.tweens ++ (mids.zip (origs.drop k)).map (mkTween s)) ∧
    (∀ i, ¬ i ∈ mids →
      (mids.foldl (restoreStepFn origs) (s, k)).1.meshes i = s.meshes i) ∧
    (∀ p ∈ mids.zip (origs.drop k),
      (mids.foldl (restoreStepFn origs) (s, k)).1.meshes p.1 = lerpedMesh s p) := by
  intro mids
  induction mids with
  | nil =>
      intro k s _ _ _ _
      exact ⟨by simp, fun i _ => rfl, fun p hp => absurd hp (by simp)⟩
  | cons mid0 tl ih =>
      intro k s hlen hphong hsingle hnd
      obtain ⟨m, hm, hmk⟩ := hsingle mid0 (List.mem_cons_self mid0 tl)
      have hk : k < origs.length := by
        rw [← hlen]
        simp only [List.length_cons]
        omega
      have hstep : restoreStepFn origs (s, k) mid0 =
          (installTween mid0 m (origs.get ⟨k, hk⟩) s, k + 1) := by
        simp only [restoreStepFn, hm]
        rw [dif_pos hk, if_pos ⟨hmk, hphong k hk⟩]
      set s' := installTween mid0 m (origs.get ⟨k, hk⟩) s with hs'
      have hmid0_notin : ¬ mid0 ∈ tl := (List.nodup_cons.mp hnd).1
      have hnd' : tl.Nodup := (List.nodup_cons.mp hnd).2
      have hs'_other : ∀ i, ¬ i = mid0 → s'.meshes i = s.meshes i :=
        fun i hi => installTween_meshes_ne mid0 m _ s i hi
      have hsingle' : ∀ mid ∈ tl, singlePhong (s'.meshes mid) := by
        intro mid hmid
        rw [hs'_other mid (fun hh => hmid0_notin (hh ▸ hmid))]
        exact hsingle mid (List.mem_cons_of_mem mid0 hmid)
      have hlen' : (k + 1) + tl.length = origs.length := by
        rw [← hlen]
        simp only [List.length_cons]
        omega
      have hih := ih (k + 1) s' hlen' hphong hsingle' hnd'
      have hfold : ((mid0 :: tl).foldl (restoreStepFn origs) (s, k)) =
          tl.foldl (restoreStepFn origs) (s', k + 1) := by
        rw [List.foldl_cons, hstep]
      have hdrop : origs.drop k = origs.get ⟨k, hk⟩ :: origs.drop (k + 1) :=
        List.drop_eq_getElem_cons hk
      have hzip : (mid0 :: tl).zip (origs.drop k) =
          (mid0, origs.get ⟨k, hk⟩) :: tl.zip (origs.drop (k + 1)) := by
        rw [hdrop]
        rfl
      refine ⟨?_, ?_, ?_⟩
      · rw [hfold, hih.1, hzip]
        have htw : s'.tweens = s.tweens ++ [mkTween s (mid0, origs.get ⟨k, hk⟩)] := by
          rw [hs']
          simp [installTween, mkTween, headMat_single (s.meshes mid0) m hm]
        have hmap : (tl.zip (origs.drop (k + 1))).map (mkTween s') =
            (tl.zip (origs.drop (k + 1))).map (mkTween s) := by
          apply List.map_congr_left
          intro p hp
          obtain ⟨a, b⟩ := p
          have ha : a ∈ tl := (List.of_mem_zip hp).1
          unfold mkTween
          rw [hs'_other a (fun hh => hmid0_notin (hh ▸ ha))]
        rw [htw, hmap, List.map_cons]
        simp
      · intro i hi
        have hi_tl : ¬ i ∈ tl := fun hh => hi (List.mem_cons_of_mem mid0 hh)
        have hi_ne : ¬ i = mid0 := fun hh => hi (hh ▸ List.mem_cons_self mid0 tl)
        rw [hfold, hih.2.1 i hi_tl, hs'_other i hi_ne]
      · intro p hp
        rw [hzip] at hp
        rcases List.mem_cons.mp hp with heq | hmem
        · rw [hfold, heq, hih.2.1 mid0 hmid0_notin, hs']
          show (setTop _ _ mid0 s.meshes) mid0 = _
          rw [setTop_self_single _ _ mid0 s.meshes m hm]
          simp [lerpedMesh, headMat_single (s.meshes mid0) m hm]
        · rw [hfold, hih.2.2 p hmem]
          obtain ⟨a, b⟩ := p
          have ha : a ∈ tl := (List.of_mem_zip hmem).1
          simp only [lerpedMesh]
          rw [hs'_other a (fun hh => hmid0_notin (hh ▸ ha))]

/-- Exact effect of `restoreRegionMaterial` on an aligned single-phong
record: synchronous first lerp on every captured mesh, one pending tween
per mesh ending at its snapshot, record deleted, timers and regions
untouched. -/
theorem restore_spec (name : String) (s : HState) (info : HighlightInfo)
    (hget : alistGet name s.highlighted = some info)
    (hlen : info.meshes.length = info.originalMaterials.length)
    (hphong : ∀ (j : Nat) (hj : j < info.originalMaterials.length),
      (info.originalMaterials.get ⟨j, hj⟩).kind = .phong)
    (hsingle : ∀ mid ∈ info.meshes, singlePhong (s.meshes mid))
    (hnd : info.meshes.Nodup) :
    ((restoreRegionMaterial name s).tweens =
       s.tweens ++ (info.meshes.zip info.originalMaterials).map (mkTween s)) ∧
    (∀ i, ¬ i ∈ info.meshes →
      (restoreRegionMaterial name s).meshes i = s.meshes i) ∧
    (∀ p ∈ info.meshes.zip info.originalMaterials,
      (restoreRegionMaterial name s).meshes p.1 = lerpedMesh s p) ∧
    (restoreRegionMaterial name s).highlighted = alistDelete name s.highlighted ∧
    (restoreRegionMaterial name s).timers = s.timers ∧
    (restoreRegionMaterial name s).regions = s.regions := by
  have hfold := restoreFold_spec info.originalMaterials info.meshes 0 s
    (by simpa using hlen) hphong hsingle hnd
  have hresult : restoreRegionMaterial name s =
      { (info.meshes.foldl (restoreStepFn info.originalMaterials) (s, 0)).1 with
        highlighted := alistDelete name
          (info.meshes.foldl (restoreStepFn info.originalMaterials) (s, 0)).1.highlighted } := by
    unfold restoreRegionMaterial
    rw [hget]
  have hinv := restore_inv name s
  rw [List.drop_zero] at hfold
  refine ⟨?_, ?_, ?_, ?_, hinv.2.1, hinv.1⟩
  · rw [hresult]
    exact hfold.1
  · intro i hi
    rw [hresult]
    exact hfold.2.1 i hi
  · intro p hp
    rw [hresult]
    exact hfold.2.2 p hp
  · rw [hinv.2.2.2, hget]

/-- First-frame movement: the `t = 0.02` lerp equals the start colour only
when start and end already agree. -/
theorem lerp_fiftieth_eq_self_iff (a b : Color) :
    Color.lerpColors a b (1/50) = a ↔ b = a := by
  cases a with
  | mk ar ag ab =>
      cases b with
      | mk br bg bb =>
          unfold Color.lerpColors
          simp only [Color.mk.injEq]
          constructor
          · rintro ⟨h1, h2, h3⟩
            refine ⟨?_, ?_, ?_⟩ <;> linarith
          · rintro ⟨h1, h2, h3⟩
            refine ⟨?_, ?_, ?_⟩ <;> linarith

/-! ## Claim C6: clearRegionHighlight reverts immediately -/

/-- C6 (amended): for a name with an active record whose meshes each carry
a single (non-array) phong material with one aligned snapshot per mesh,
`clearRegionHighlight` returns `true`, cancels the pending revert timer,
removes the record, and starts the revert synchronously: already within the
call each captured mesh's top colour has taken the first interpolation step
towards its snapshot (so whenever snapshot and current colour differ, the
colour has changed before any further scheduled step — it does not wait for
the original duration).  For a name with no active record it returns
`false` and changes nothing.  (For the multi-material records
`drawExtrudeMesh` actually produces the immediate-revert part fails from
the second mesh on — the same `materialIndex` desynchronisation as in C1
leaves it without a tween, see the counterexample.) -/
theorem C6_clearHighlight_immediateRevert (s : HState) (name : String)
    (info : HighlightInfo)
    (hget : alistGet name s.highlighted = some info)
    (hlen : info.meshes.length = info.originalMaterials.length)
    (hphong : ∀ (j : Nat) (hj : j < info.originalMaterials.length),
      (info.originalMaterials.get ⟨j, hj⟩).kind = .phong)
    (hsingle : ∀ mid ∈ info.meshes, singlePhong (s.meshes mid))
    (hnd : info.meshes.Nodup) :
    (clearRegionHighlight name s).1 = true ∧
    ((clearRegionHighlight name s).2).timers =
      s.timers.filter (fun p => ¬ p.1 = name) ∧
    alistGet name ((clearRegionHighlight name s).2).highlighted = none ∧
    (∀ p ∈ info.meshes.zip info.originalMaterials,
      topColor (((clearRegionHighlight name s).2).meshes p.1) =
        some (Color.lerpColors (headMat (s.meshes p.1)).color p.2.color (1/50)) ∧
      (¬ p.2.color = (headMat (s.meshes p.1)).color →
        ¬ topColor (((clearRegionHighlight name s).2).meshes p.1) =
          some (headMat (s.meshes p.1)).color)) ∧
    (∀ s2 : HState, alistGet name s2.highlighted = none →
      clearRegionHighlight name s2 = (false, s2)) := by
  have hclear : clearRegionHighlight name s = (true, restoreRegionMaterial name
      { s with timers := s.timers.filter (fun p => ¬ p.1 = name) }) := by
    unfold clearRegionHighlight
    rw [hget]
  have hrs := restore_spec name
    { s with timers := s.timers.filter (fun p => ¬ p.1 = name) } info
    hget hlen hphong hsingle hnd
  refine ⟨by rw [hclear], ?_, ?_, ?_, ?_⟩
  · rw [hclear]
    exact hrs.2.2.2.2.1
  · rw [hclear]
    show alistGet name (restoreRegionMaterial name _).highlighted = none
    rw [hrs.2.2.2.1]
    exact alistGet_delete_self name _
  · intro p hp
    have hmesh := hrs.2.2.1 p hp
    constructor
    · rw [hclear]
      show topColor ((restoreRegionMaterial name _).meshes p.1) = _
      rw [hmesh]
      rfl
    · intro hne habs
      rw [hclear] at habs
      have : topColor ((restoreRegionMaterial name
          { s with timers := s.timers.filter (fun p => ¬ p.1 = name) }).meshes p.1) =
          some (Color.lerpColors (headMat (s.meshes p.1)).color p.2.color (1/50)) := by
        rw [hmesh]; rfl
      rw [this] at habs
      have heq := Option.some.inj habs
      exact hne ((lerp_fiftieth_eq_self_iff (headMat (s.meshes p.1)).color p.2.color).mp heq)
  · intro s2 h2
    unfold clearRegionHighlight
    rw [h2]

/-- Snapshot material used by the C6 witness. -/
def c6Snap : Material := ⟨.phong, ⟨1/4, 0, 0⟩, ⟨0, 0, 0⟩, 1⟩

/-- A currently-gold highlighted mesh used by the C6 witness. -/
def c6Mesh : Mesh :=
  { material := .single ⟨.phong, goldColor, goldEmissive, 1⟩, isChangeColor := true }

/-- The active record of the C6 witness. -/
def c6Info : HighlightInfo := { meshes := [0], originalMaterials := [c6Snap] }

/-- The C6 witness state: region "R" highlighted with a pending timer. -/
def c6State : HState :=
  { regions := [], meshes := fun _ => c6Mesh, highlighted := [("R", c6Info)],
    timers := [("R", 3000)], tweens := [] }

/-- Witness for C6 at a concrete state. -/
theorem C6_clearHighlight_immediateRevert_witness :
    (clearRegionHighlight "R" c6State).1 = true ∧
    alistGet "R" ((clearRegionHighlight "R" c6State).2).highlighted = none ∧
    ((clearRegionHighlight "R" c6State).2).timers = [] := by
  have h := C6_clearHighlight_immediateRevert c6State "R" c6Info rfl rfl
    (by intro j hj
        have hj' : j = 0 := by
          simp only [c6Info, List.length_cons, List.length_nil] at hj
          omega
        subst hj'
        rfl)
    (by intro mid hmid
        have : mid = 0 := by simpa [c6Info] using hmid
        subst this
        exact ⟨⟨.phong, goldColor, goldEmissive, 1⟩, rfl, rfl⟩)
    (by decide)
  refine ⟨h.1, h.2.2.1, ?_⟩
  rw [h.2.1]
  decide

/-- A marked single-phong mesh used by the C2 witness. -/
def c2Mesh : Mesh :=
  { material := .single ⟨.phong, ⟨1/2, 0, 0⟩, ⟨0, 0, 0⟩, 1⟩, isChangeColor := true }

/-- Region node "A" of the C2 witness. -/
def c2Node : RegionNode := { props := ⟨some "A", none, none, none⟩, meshIds := [0] }

/-- The C2 witness state. -/
def c2State : HState :=
  { regions := [c2Node], meshes := fun _ => c2Mesh, highlighted := [],
    timers := [], tweens := [] }

/-- Witness for C2 at a concrete state: two successive highlights of "A"
leave exactly one record. -/
theorem C2_singleRecordPerName_witness :
    countKey "A"
      ((highlightRegion "A" 100 ((highlightRegion "A" 200 c2State).2)).2).highlighted =
      1 :=
  (C2_singleRecordPerName c2State "A" 200 100 (by decide) (by decide)).1

/-! ## Convergence of the revert tweens across animation frames -/

/-- A frame write for one tween leaves other meshes alone. -/
theorem tweenWrite_ne (f : Nat → Mesh) (tw : Tween) (i : Nat)
    (h : ¬ i = tw.meshId) : (tweenWrite f tw) i = f i := by
  simp only [tweenWrite]
  split <;> exact setTop_ne _ _ _ f i h

/-- A frame write keeps single-material meshes single (any id). -/
theorem tweenWrite_isSingle (f : Nat → Mesh) (tw : Tween) (i : Nat)
    (h : isSingleMesh (f i)) : isSingleMesh ((tweenWrite f tw) i) := by
  simp only [tweenWrite]
  split <;> exact setTop_isSingle _ _ _ f i h

/-- A whole frame of writes leaves non-target meshes alone. -/
theorem foldWrite_not_mem :
    ∀ (tws : List Tween) (f : Nat → Mesh) (i : Nat),
    ¬ i ∈ tws.map Tween.meshId → (tws.foldl tweenWrite f) i = f i := by
  intro tws
  induction tws with
  | nil => intro f i _; rfl
  | cons tw0 rest ih =>
      intro f i h
      have h0 : ¬ i = tw0.meshId := fun hh => h (by
        rw [List.map_cons]
        exact hh ▸ List.mem_cons_self _ _)
      have hr : ¬ i ∈ rest.map Tween.meshId := fun hh => h (by
        rw [List.map_cons]
        exact List.mem_cons_of_mem _ hh)
      rw [List.foldl_cons, ih (tweenWrite f tw0) i hr, tweenWrite_ne f tw0 i h0]

/-- A whole frame of writes keeps single-material meshes single (any id). -/
theorem foldWrite_isSingle :
    ∀ (tws : List Tween) (f : Nat → Mesh) (i : Nat),
    isSingleMesh (f i) → isSingleMesh ((tws.foldl tweenWrite f) i) := by
  intro tws
  induction tws with
  | nil => intro f i h; exact h
  | cons tw0 rest ih =>
      intro f i h
      rw [List.foldl_cons]
      exact ih (tweenWrite f tw0) i (tweenWrite_isSingle f tw0 i h)

/-- The final frame of a tween (`t + 0.02 ≥ 1`) copies the end colours. -/
theorem tweenWrite_final (f : Nat → Mesh) (tw : Tween)
    (hc : (1 : ℚ) ≤ tw.t + 1/50) (h : isSingleMesh (f tw.meshId)) :
    topColor ((tweenWrite f tw) tw.meshId) = some tw.endColor ∧
    topEmissive ((tweenWrite f tw) tw.meshId) = some tw.endEmissive := by
  obtain ⟨m, hm⟩ := h
  simp only [tweenWrite]
  rw [if_pos hc, setTop_self_single _ _ _ f m hm]
  exact ⟨rfl, rfl⟩

/-- In a frame where every tween finishes, each (distinct) target ends at
its tween's end colours. -/
theorem foldWrite_final :
    ∀ (tws : List Tween) (f : Nat → Mesh),
    (∀ tw ∈ tws, (1 : ℚ) ≤ tw.t + 1/50) →
    (tws.map Tween.meshId).Nodup →
    ∀ tw ∈ tws, isSingleMesh (f tw.meshId) →
    topColor ((tws.foldl tweenWrite f) tw.meshId) = some tw.endColor ∧
    topEmissive ((tws.foldl tweenWrite f) tw.meshId) = some tw.endEmissive := by
  intro tws
  induction tws with
  | nil => intro f _ _ tw htw; cases htw
  | cons tw0 rest ih =>
      intro f hall hnd tw htw hsm
      rw [List.map_cons] at hnd
      have hnd0 : ¬ tw0.meshId ∈ rest.map Tween.meshId := (List.nodup_cons.mp hnd).1
      have hndr : (rest.map Tween.meshId).Nodup := (List.nodup_cons.mp hnd).2
      rcases List.mem_cons.mp htw with heq | hmem
      · subst heq
        rw [List.foldl_cons, foldWrite_not_mem rest (tweenWrite f tw) tw.meshId hnd0]
        exact tweenWrite_final f tw (hall tw (List.mem_cons_self tw rest)) hsm
      · rw [List.foldl_cons]
        exact ih (tweenWrite f tw0) (fun tw' h' => hall tw' (List.mem_cons_of_mem tw0 h'))
          hndr tw hmem (tweenWrite_isSingle f tw0 tw.meshId hsm)

/-- A frame in which no tween finishes advances them all by `0.02`. -/
theorem stepTweens_alive (s : HState)
    (hall : ∀ tw ∈ s.tweens, tw.t + 1/50 < 1) :
    (stepTweens s).tweens =
      s.tweens.map (fun tw => { tw with t := tw.t + 1/50 }) := by
  have hfil : s.tweens.filter (fun tw => tw.t + 1/50 < 1) = s.tweens :=
    List.filter_eq_self.mpr (fun tw htw => by simpa using hall tw htw)
  show ((s.tweens.filter (fun tw => tw.t + 1/50 < 1)).map
      (fun tw => ({ tw with t := tw.t + 1/50 } : Tween))) =
    s.tweens.map (fun tw => ({ tw with t := tw.t + 1/50 } : Tween))
  rw [hfil]

/-- After the remaining `n` frames (tween parameter at `(50-n)/50`), every
running tween's target mesh carries exactly the tween's end colours, and
the record map and timers are untouched. -/
theorem stepTweens_converge :
    ∀ (n : Nat) (s : HState), 1 ≤ n →
    (∀ tw ∈ s.tweens, tw.t = ((50 : ℚ) - n)/50) →
    (s.tweens.map Tween.meshId).Nodup →
    (∀ tw ∈ s.tweens, isSingleMesh (s.meshes tw.meshId)) →
    ((stepTweens^[n] s).highlighted = s.highlighted) ∧
    ((stepTweens^[n] s).timers = s.timers) ∧
    (∀ tw ∈ s.tweens,
      topColor ((stepTweens^[n] s).meshes tw.meshId) = some tw.endColor ∧
      topEmissive ((stepTweens^[n] s).meshes tw.meshId) = some tw.endEmissive) := by
  intro n
  induction n with
  | zero => intro s h; omega
  | succ n ih =>
      intro s _ ht hnd hsm
      by_cases hn0 : n = 0
      · subst hn0
        rw [Function.iterate_one]
        have hall : ∀ tw ∈ s.tweens, (1 : ℚ) ≤ tw.t + 1/50 := by
          intro tw htw
          rw [ht tw htw]
          norm_num
        exact ⟨rfl, rfl, fun tw htw =>
          foldWrite_final s.tweens s.meshes hall hnd tw htw (hsm tw htw)⟩
      · have hn1 : 1 ≤ n := Nat.one_le_iff_ne_zero.mpr hn0
        have hcast : (1 : ℚ) ≤ (n : ℚ) := by exact_mod_cast hn1
        have halive : ∀ tw ∈ s.tweens, tw.t + 1/50 < 1 := by
          intro tw htw
          rw [ht tw htw]
          push_cast
          linarith
        have hstep := stepTweens_alive s halive
        rw [Function.iterate_succ_apply]
        have ht' : ∀ tw' ∈ (stepTweens s).tweens, tw'.t = ((50 : ℚ) - n)/50 := by
          intro tw' htw'
          rw [hstep] at htw'
          rcases List.mem_map.mp htw' with ⟨tw, htw, rfl⟩
          show tw.t + 1/50 = _
          rw [ht tw htw]
          push_cast
          ring
        have hnd' : ((stepTweens s).tweens.map Tween.meshId).Nodup := by
          rw [hstep, List.map_map]
          have : (s.tweens.map (Tween.meshId ∘ fun tw => { tw with t := tw.t + 1/50 })) =
              s.tweens.map Tween.meshId :=
            List.map_congr_left (fun tw _ => rfl)
          rw [this]
          exact hnd
        have hsm' : ∀ tw' ∈ (stepTweens s).tweens,
            isSingleMesh ((stepTweens s).meshes tw'.meshId) := by
          intro tw' htw'
          rw [hstep] at htw'
          rcases List.mem_map.mp htw' with ⟨tw, htw, rfl⟩
          show isSingleMesh ((s.tweens.foldl tweenWrite s.meshes) tw.meshId)
          exact foldWrite_isSingle s.tweens s.meshes tw.meshId (hsm tw htw)
        have hih := ih (stepTweens s) hn1 ht' hnd' hsm'
        refine ⟨hih.1, hih.2.1, ?_⟩
        intro tw htw
        have htw' : ({ tw with t := tw.t + 1/50 } : Tween) ∈ (stepTweens s).tweens := by
          rw [hstep]
          exact List.mem_map_of_mem _ htw
        exact hih.2.2 ({ tw with t := tw.t + 1/50 } : Tween) htw'

/-- One apply-highlight step keeps single-phong meshes single-phong. -/
theorem applyHighlightStep_singlePhong (f : Nat → Mesh) (mid i : Nat)
    (h : singlePhong (f i)) : singlePhong ((applyHighlightStep f mid) i) := by
  unfold applyHighlightStep
  cases hmat : (f mid).material with
  | single m =>
      dsimp only
      split
      · exact setTop_singlePhong _ _ mid f i h
      · exact h
  | array ms =>
      cases ms with
      | nil => exact h
      | cons m0 rest =>
          dsimp only
          split
          · exact setTop_singlePhong _ _ mid f i h
          · exact h

/-- The apply-highlight fold keeps single-phong meshes single-phong. -/
theorem applyFold_singlePhong :
    ∀ (l : List Nat) (f : Nat → Mesh) (i : Nat),
    singlePhong (f i) → singlePhong ((l.foldl applyHighlightStep f) i) := by
  intro l
  induction l with
  | nil => intro f i h; exact h
  | cons mid tl ih =>
      intro f i h
      rw [List.foldl_cons]
      exact ih (applyHighlightStep f mid) i (applyHighlightStep_singlePhong f mid i h)

/-- `applyHighlightMaterial` keeps single-phong meshes single-phong. -/
theorem applyHighlight_singlePhong (mids : List Nat) (s : HState) (i : Nat)
    (h : singlePhong (s.meshes i)) :
    singlePhong ((applyHighlightMaterial mids s).meshes i) :=
  applyFold_singlePhong mids s.meshes i h

/-! ## Claim C1: after the duration, the revert restores the snapshot -/

/-- C1 (amended): for a region whose highlightable meshes each carry a
single (non-array) phong material, a successful un-cancelled
`highlightRegion`, followed by the timer firing and 49 further animation
frames, drives every captured mesh's top colour and emissive back exactly
to the values snapshotted just before the highlight, and the region's
record is discarded — for any number of captured meshes.  (For
multi-material meshes the snapshot list holds one entry per material while
the restore consumes one per mesh, desynchronising the restore from the
second mesh on, see the counterexample.) -/
theorem C1_revertRestoresSnapshot (s : HState) (name : String) (dur : Nat)
    (node : RegionNode)
    (hrec : alistGet name s.highlighted = none)
    (htw : s.tweens = [])
    (hfind : findRegion name s.regions = some node)
    (hne : ¬ captureIds node s.meshes = [])
    (hnd : (captureIds node s.meshes).Nodup)
    (hsingle : ∀ mid ∈ captureIds node s.meshes, singlePhong (s.meshes mid)) :
    (highlightRegion name dur s).1 = true ∧
    alistGet name
      ((stepTweens^[49] (fireTimer name ((highlightRegion name dur s).2))).highlighted) =
      none ∧
    ∀ p ∈ (captureIds node s.meshes).zip (captureOrigs node s.meshes),
      topColor ((stepTweens^[49]
        (fireTimer name ((highlightRegion name dur s).2))).meshes p.1) =
        some p.2.color ∧
      topEmissive ((stepTweens^[49]
        (fireTimer name ((highlightRegion name dur s).2))).meshes p.1) =
        some p.2.emissive := by
  have hsingleM : ∀ mid ∈ captureIds node s.meshes, isSingleMesh (s.meshes mid) :=
    fun mid hm => (hsingle mid hm).imp (fun m hh => hh.1)
  have horigs : captureOrigs node s.meshes =
      (captureIds node s.meshes).map (fun mid => headMat (s.meshes mid)) :=
    captureOrigs_singles node s.meshes hsingleM
  have hsucc := hl_success_spec name dur s node hrec hfind hne
  have hs1 : (highlightRegion name dur s).2 =
      { applyHighlightMaterial (captureIds node s.meshes) s with
        timers := s.timers ++ [(name, dur)],
        highlighted := alistSet name
          ⟨captureIds node s.meshes, captureOrigs node s.meshes⟩ s.highlighted } :=
    (congrArg Prod.snd hsucc).trans rfl
  have hfire : fireTimer name ((highlightRegion name dur s).2) =
      restoreRegionMaterial name
        { applyHighlightMaterial (captureIds node s.meshes) s with
          timers := (s.timers ++ [(name, dur)]).filter (fun p => ¬ p.1 = name),
          highlighted := alistSet name
            ⟨captureIds node s.meshes, captureOrigs node s.meshes⟩ s.highlighted } := by
    rw [show fireTimer name ((highlightRegion name dur s).2) =
      restoreRegionMaterial name
        { (highlightRegion name dur s).2 with
          timers := ((highlightRegion name dur s).2).timers.filter
            (fun p => ¬ p.1 = name) } from rfl, hs1]
  set sT : HState :=
    { applyHighlightMaterial (captureIds node s.meshes) s with
      timers := (s.timers ++ [(name, dur)]).filter (fun p => ¬ p.1 = name),
      highlighted := alistSet name
        ⟨captureIds node s.meshes, captureOrigs node s.meshes⟩ s.highlighted } with hsT
  have hrs := restore_spec name sT
    ⟨captureIds node s.meshes, captureOrigs node s.meshes⟩
    (show alistGet name (alistSet name _ s.highlighted) = some _ from
      alistGet_set_self name _ s.highlighted)
    (show (captureIds node s.meshes).length = (captureOrigs node s.meshes).length by
      rw [horigs, List.length_map])
    (by intro j hj
        show ((captureOrigs node s.meshes).get ⟨j, hj⟩).kind = .phong
        set x := (captureOrigs node s.meshes).get ⟨j, hj⟩ with hx
        have hmem : x ∈ captureOrigs node s.meshes := by
          rw [hx]
          exact List.get_mem _ _ _
        rw [horigs] at hmem
        rcases List.mem_map.mp hmem with ⟨mid, hmid, heq⟩
        rw [← heq]
        obtain ⟨mm, h1, h2⟩ := hsingle mid hmid
        rw [headMat_single _ mm h1]
        exact h2)
    (by intro mid hmid
        show singlePhong ((applyHighlightMaterial (captureIds node s.meshes) s).meshes mid)
        exact applyHighlight_singlePhong _ s mid (hsingle mid hmid))
    hnd
  have hS2tweens : (restoreRegionMaterial name sT).tweens =
      ((captureIds node s.meshes).zip (captureOrigs node s.meshes)).map (mkTween sT) := by
    rw [hrs.1, show sT.tweens = [] from htw, List.nil_append]
  have hzip_fst : (((captureIds node s.meshes).zip
      (captureOrigs node s.meshes)).map Prod.fst) = captureIds node s.meshes :=
    List.map_fst_zip _ _ (le_of_eq (by rw [horigs, List.length_map]))
  have ht49 : ∀ tw ∈ (restoreRegionMaterial name sT).tweens,
      tw.t = ((50 : ℚ) - (49 : ℕ))/50 := by
    intro tw htw'
    rw [hS2tweens] at htw'
    rcases List.mem_map.mp htw' with ⟨p, hp, rfl⟩
    show (1 : ℚ)/50 = ((50 : ℚ) - (49 : ℕ))/50
    norm_num
  have hnd49 : ((restoreRegionMaterial name sT).tweens.map Tween.meshId).Nodup := by
    rw [hS2tweens, List.map_map]
    have hcomp : (((captureIds node s.meshes).zip (captureOrigs node s.meshes)).map
        (Tween.meshId ∘ mkTween sT)) =
        (((captureIds node s.meshes).zip (captureOrigs node s.meshes)).map Prod.fst) :=
      List.map_congr_left (fun p _ => rfl)
    rw [hcomp, hzip_fst]
    exact hnd
  have hsm49 : ∀ tw ∈ (restoreRegionMaterial name sT).tweens,
      isSingleMesh ((restoreRegionMaterial name sT).meshes tw.meshId) := by
    intro tw htw'
    rw [hS2tweens] at htw'
    rcases List.mem_map.mp htw' with ⟨p, hp, rfl⟩
    show isSingleMesh ((restoreRegionMaterial name sT).meshes p.1)
    rw [hrs.2.2.1 p hp]
    exact ⟨_, rfl⟩
  have hconv := stepTweens_converge 49 (restoreRegionMaterial name sT)
    (by norm_num) ht49 hnd49 hsm49
  refine ⟨by rw [hsucc], ?_, ?_⟩
  · rw [hfire, hconv.1, hrs.2.2.2.1]
    exact alistGet_delete_self name _
  · intro p hp
    rw [hfire]
    have htwmem : mkTween sT p ∈ (restoreRegionMaterial name sT).tweens := by
      rw [hS2tweens]
      exact List.mem_map_of_mem _ hp
    exact hconv.2.2 (mkTween sT p) htwmem

/-- Meshes never targeted by a tween are untouched by any number of
animation frames. -/
theorem stepTweens_not_target :
    ∀ (n : Nat) (s : HState) (i : Nat), ¬ i ∈ s.tweens.map Tween.meshId →
    (stepTweens^[n] s).meshes i = s.meshes i := by
  intro n
  induction n with
  | zero => intro s i _; rfl
  | succ n ih =>
      intro s i h
      rw [Function.iterate_succ_apply]
      have h1 : (stepTweens s).meshes i = s.meshes i :=
        foldWrite_not_mem s.tweens s.meshes i h
      have h2 : ¬ i ∈ (stepTweens s).tweens.map Tween.meshId := by
        intro hmem
        apply h
        rcases List.mem_map.mp hmem with ⟨tw', htw', rfl⟩
        rcases List.mem_map.mp (show tw' ∈ (s.tweens.filter
            (fun tw => tw.t + 1/50 < 1)).map (fun tw => { tw with t := tw.t + 1/50 })
          from htw') with ⟨tw, htw, rfl⟩
        have hmem' : tw.meshId ∈ s.tweens.map Tween.meshId :=
          List.mem_map_of_mem Tween.meshId (List.mem_of_mem_filter htw)
        exact hmem'
      rw [ih (stepTweens s) i h2, h1]

/-- First single-phong mesh of the C1 witness region. -/
def c1WMesh1 : Mesh :=
  { material := .single ⟨.phong, ⟨1/2, 0, 0⟩, ⟨0, 0, 0⟩, 1⟩, isChangeColor := true }

/-- Second single-phong mesh of the C1 witness region. -/
def c1WMesh2 : Mesh :=
  { material := .single ⟨.phong, ⟨0, 1/2, 0⟩, ⟨0, 0, 0⟩, 1⟩, isChangeColor := true }

/-- The C1 witness region node (two highlightable meshes). -/
def c1WNode : RegionNode := { props := ⟨some "W", none, none, none⟩, meshIds := [0, 1] }

/-- The C1 witness state. -/
def c1WState : HState :=
  { regions := [c1WNode], meshes := fun i => if i = 0 then c1WMesh1 else c1WMesh2,
    highlighted := [], timers := [], tweens := [] }

/-- Witness for C1 (amended) at a concrete two-mesh state. -/
theorem C1_revertRestoresSnapshot_witness :
    (highlightRegion "W" 3000 c1WState).1 = true ∧
    alistGet "W"
      ((stepTweens^[49] (fireTimer "W" ((highlightRegion "W" 3000 c1WState).2))).highlighted) =
      none := by
  have h := C1_revertRestoresSnapshot c1WState "W" 3000 c1WNode rfl rfl
    (by decide) (by decide) (by decide)
    (by intro mid hmid
        rw [show captureIds c1WNode c1WState.meshes = [0, 1] from by decide] at hmid
        rcases List.mem_cons.mp hmid with h0 | hmid
        · subst h0
          exact ⟨⟨.phong, ⟨1/2, 0, 0⟩, ⟨0, 0, 0⟩, 1⟩, rfl, rfl⟩
        · rcases List.mem_cons.mp hmid with h1 | hmid
          · subst h1
            exact ⟨⟨.phong, ⟨0, 1/2, 0⟩, ⟨0, 0, 0⟩, 1⟩, rfl, rfl⟩
          · cases hmid)
  exact ⟨h.1, h.2.1⟩

/-- Top phong material of the first counterexample mesh. -/
def c1CPhong1 : Material := ⟨.phong, ⟨3, 0, 0⟩, ⟨0, 0, 0⟩, 1⟩

/-- Top phong material of the second counterexample mesh. -/
def c1CPhong2 : Material := ⟨.phong, ⟨0, 7, 0⟩, ⟨0, 0, 0⟩, 1⟩

/-- The side shader material (as produced by `drawExtrudeMesh`). -/
def c1CShader : Material := ⟨.shader, ⟨0, 0, 0⟩, ⟨0, 0, 0⟩, 1⟩

/-- First counterexample mesh: two-material array `[phong, shader]`. -/
def c1CMesh1 : Mesh := { material := .array [c1CPhong1, c1CShader], isChangeColor := true }

/-- Second counterexample mesh: two-material array `[phong, shader]`. -/
def c1CMesh2 : Mesh := { material := .array [c1CPhong2, c1CShader], isChangeColor := true }

/-- The counterexample region: two highlightable extruded meshes. -/
def c1CNode : RegionNode := { props := ⟨some "B", none, none, none⟩, meshIds := [1, 2] }

/-- The C1 counterexample state. -/
def c1CState : HState :=
  { regions := [c1CNode], meshes := fun i => if i = 1 then c1CMesh1 else c1CMesh2,
    highlighted := [], timers := [], tweens := [] }

/-- Counterexample to C1 as stated: with two highlightable two-material
meshes (the shape `drawExtrudeMesh` actually produces), the snapshot list
holds four materials but the restore consumes one per mesh, so the second
mesh's restore reads the first mesh's side shader snapshot, fails the
phong check, gets no revert tween, and stays gold forever — after the
timer fires and after 49 further frames its top colour is still the
highlight gold, not its snapshot — although the record is discarded. -/
theorem C1_counterexample :
    (highlightRegion "B" 3000 c1CState).1 = true ∧
    topColor ((fireTimer "B" ((highlightRegion "B" 3000 c1CState).2)).meshes 2) =
      some goldColor ∧
    topColor ((stepTweens^[49]
      (fireTimer "B" ((highlightRegion "B" 3000 c1CState).2))).meshes 2) =
      some goldColor ∧
    topColor (c1CState.meshes 2) = some ⟨0, 7, 0⟩ ∧
    ¬ goldColor = (⟨0, 7, 0⟩ : Color) ∧
    alistGet "B" ((fireTimer "B" ((highlightRegion "B" 3000 c1CState).2)).highlighted) =
      none := by
  refine ⟨rfl, rfl, ?_, rfl, ?_, rfl⟩
  · rw [stepTweens_not_target 49 _ 2 (by decide)]
    rfl
  · intro h
    have hr := congrArg Color.r h
    simp only [goldColor, Color.setHex] at hr
    norm_num at hr

/-- The C6 counterexample region: two highlightable meshes of the
two-material `[phong, shader]` shape `drawExtrudeMesh` produces. -/
def c6CNode : RegionNode := { props := ⟨some "Q", none, none, none⟩, meshIds := [1, 2] }

/-- The C6 counterexample state (before highlighting). -/
def c6CState : HState :=
  { regions := [c6CNode], meshes := fun i => if i = 1 then c1CMesh1 else c1CMesh2,
    highlighted := [], timers := [], tweens := [] }

/-- Counterexample to C6 as stated: on an active record over two
two-material meshes, `clearRegionHighlight` still returns `true` and
removes the record, but the revert does NOT begin for the second mesh —
immediately after the call its top colour is still the highlight gold, the
only pending tween targets mesh 1, and after one further scheduled
animation step mesh 2 is still gold, never having started to revert
towards its (different) snapshot colour. -/
theorem C6_counterexample :
    (highlightRegion "Q" 3000 c6CState).1 = true ∧
    (alistGet "Q" ((highlightRegion "Q" 3000 c6CState).2).highlighted).isSome = true ∧
    (clearRegionHighlight "Q" ((highlightRegion "Q" 3000 c6CState).2)).1 = true ∧
    alistGet "Q"
      ((clearRegionHighlight "Q" ((highlightRegion "Q" 3000 c6CState).2)).2).highlighted =
      none ∧
    topColor (c6CState.meshes 2) = some ⟨0, 7, 0⟩ ∧
    topColor
      (((clearRegionHighlight "Q" ((highlightRegion "Q" 3000 c6CState).2)).2).meshes 2) =
      some goldColor ∧
    ((clearRegionHighlight "Q" ((highlightRegion "Q" 3000 c6CState).2)).2).tweens.map
      Tween.meshId = [1] ∧
    topColor ((stepTweens^[1]
      ((clearRegionHighlight "Q" ((highlightRegion "Q" 3000 c6CState).2)).2)).meshes 2) =
      some goldColor ∧
    ¬ goldColor = (⟨0, 7, 0⟩ : Color) := by
  refine ⟨rfl, rfl, rfl, rfl, rfl, rfl, by decide, ?_, ?_⟩
  · rw [stepTweens_not_target 1 _ 2 (by decide)]
    rfl
  · intro h
    have hr := congrArg Color.r h
    simp only [goldColor, Color.setHex] at hr
    norm_num at hr
